import Mathlib

/-!
Verification of the AIMCR review tool (streamlit_app.py and
json_to_pdf_longtable.py): risk aggregation, report rendering and draft
serialization, shallowly embedded in Lean.

Python dictionaries whose values are all of one type are embedded as
association lists `List (String × α)`; a Python `dict[k]` subscript that can
raise `KeyError` is embedded as an `Option`-valued lookup (`none` = raised
exception), and Python list comprehensions or generators whose body can raise
are embedded with `pyListMap` (`none` = some iteration raised).  JSON numbers
are modelled as `Int` (the interactive app only ever produces integer scores).
-/

namespace AIMCR

/-- One per-check result as the interactive app stores it:
`{"score": <int>, "notes": <str>}`. -/
structure CheckResult where
  score : Int
  notes : String
deriving DecidableEq, Repr

/-- One artifact as the interactive app stores it:
`{"name": <str>, "checks": {<check name>: CheckResult, ...}}`. -/
structure Artifact where
  name : String
  checks : List (String × CheckResult)
deriving DecidableEq, Repr

/-- Python dict lookup `d[k]`: `none` models a raised `KeyError`. -/
def dict_lookup {α : Type} : List (String × α) → String → Option α
  | [], _ => none
  | (k2, v) :: rest, k => if k2 = k then some v else dict_lookup rest k

/-- A Python list comprehension / generator `[f x for x in l]` whose body can
raise: `none` models the exception escaping the whole comprehension. -/
def pyListMap {α β : Type} (f : α → Option β) : List α → Option (List β)
  | [] => some []
  | x :: xs => do
    let y ← f x
    let ys ← pyListMap f xs
    pure (y :: ys)

/-- Python `max(seq)`: raises (`none`) on an empty sequence, otherwise the
left fold of binary `max` — exactly `List.max?`. -/
def pymax (l : List Int) : Option Int := l.max?

/-- The scores `a["checks"][c]["score"]` for each artifact `a`, as the
generator inside `max(...)` in `render_section` (line 233) produces them. -/
def scoresAt (arts : List Artifact) (c : String) : Option (List Int) :=
  pyListMap (fun a => (dict_lookup a.checks c).map (·.score)) arts

/-- `max(a["checks"][c]["score"] for a in data[key])` for one check name. -/
def checkMax (arts : List Artifact) (c : String) : Option Int :=
  (scoresAt arts c).bind pymax

/-- `max_scores = [max(a["checks"][c]["score"] for a in data[key]) for c in checks[key]]`
(streamlit_app.py line 233). -/
def max_scores (arts : List Artifact) (names : List String) : Option (List Int) :=
  pyListMap (checkMax arts) names

/-- The severity label of streamlit_app.py line 237:
`"CRITICAL" if critical or total >= 21 else "HIGH" if total >= 15 else
"MEDIUM" if total >= 10 else "LOW"` with `total = sum(max_scores)` and
`critical = 5 in max_scores`. -/
def levelOf (maxes : List Int) : String :=
  let total := maxes.sum
  if maxes.contains 5 || decide (21 ≤ total) then "CRITICAL"
  else if decide (15 ≤ total) then "HIGH"
  else if decide (10 ≤ total) then "MEDIUM"
  else "LOW"

/-- The section risk display of `render_section` (lines 232-238): shown only
when the category is non-empty; `none` models either "no display" (empty
category) or a raised `KeyError` inside the maxima computation. -/
def render_section_display (arts : List Artifact) (names : List String) :
    Option (Int × String) :=
  if arts.isEmpty then none
  else (max_scores arts names).map (fun maxes => (maxes.sum, levelOf maxes))

/-- The scores actually present for check `c` across the artifacts (skipping
artifacts whose `checks` mapping lacks `c`). -/
def presentScores (arts : List Artifact) (c : String) : List Int :=
  arts.filterMap (fun a => (dict_lookup a.checks c).map (·.score))

/-- Specification-side per-check maximum across a category's artifacts. -/
def specCheckMax (arts : List Artifact) (c : String) : Int :=
  (presentScores arts c).max?.getD 0

/-- Severity label exactly as the spec words it: CRITICAL if any per-check
maximum equals 5 OR total ≥ 21; else HIGH if total ≥ 15; else MEDIUM if
total ≥ 10; else LOW. -/
def severity_spec (maxes : List Int) : String :=
  if 5 ∈ maxes ∨ 21 ≤ maxes.sum then "CRITICAL"
  else if 15 ≤ maxes.sum then "HIGH"
  else if 10 ≤ maxes.sum then "MEDIUM"
  else "LOW"

/-- Every artifact of the category holds a result for every one of the
category's check names (the data-model invariant of the spec, §3). -/
def allChecksPresent (arts : List Artifact) (names : List String) : Prop :=
  ∀ a ∈ arts, ∀ c ∈ names, (dict_lookup a.checks c).isSome

instance (arts : List Artifact) (names : List String) :
    Decidable (allChecksPresent arts names) := by
  unfold allChecksPresent; infer_instance

/-- The score artifact `a` holds for check `c` (meaningful when present). -/
def scoreOf (a : Artifact) (c : String) : Int :=
  ((dict_lookup a.checks c).map (·.score)).getD 0

/-- The fixed check names of the `third_party_software` category
(streamlit_app.py lines 155-162). -/
def checks_third_party_software : List String :=
  ["Open-source license compliance",
   "Known vulnerabilities (CVE)",
   "Supply chain risks (typosquatting, protestware)",
   "Binary/source origin verification",
   "Malicious code insertion risk",
   "Dependency pinning & reproducibility"]

/-- The fixed check names of the `source_code` category (lines 163-170). -/
def checks_source_code : List String :=
  ["Static code analysis (bandit, semgrep)",
   "Secrets scanning",
   "Malicious code patterns",
   "Code provenance & signing",
   "Backdoors/trojans",
   "Obfuscated code"]

/-- The fixed check names of the `datasets_user_files` category
(lines 171-178). -/
def checks_datasets_user_files : List String :=
  ["Data poisoning risk",
   "PII / sensitive data leakage",
   "Copyright / licensing issues",
   "Adversarial examples",
   "Dataset provenance",
   "Jailbreak prompts in dataset"]

/-- The fixed check names of the `models` category (lines 179-186). -/
def checks_models : List String :=
  ["Model weights integrity (hash verification)",
   "Known unsafe/refusal-bypassed models",
   "Backdoor/trojan in weights",
   "Model card completeness",
   "Unsafe fine-tuning detected",
   "Export-controlled model"]

/-- The four artifact collections of the in-session review record
(`st.session_state.data`, streamlit_app.py lines 116-129). -/
structure SessionData where
  third_party_software : List Artifact
  source_code : List Artifact
  datasets_user_files : List Artifact
  models : List Artifact
deriving DecidableEq, Repr

/-- `for key in checks:` iterates the four categories in insertion order,
pairing each category's artifact list with its fixed check names. -/
def category_list (d : SessionData) : List (List Artifact × List String) :=
  [(d.third_party_software, checks_third_party_software),
   (d.source_code, checks_source_code),
   (d.datasets_user_files, checks_datasets_user_files),
   (d.models, checks_models)]

/-- The final-summary loop of streamlit_app.py lines 248-255: for each
non-empty category compute the per-check maxima, collect their sum into
`totals` and OR `5 in maxes` into `has_crit`; `none` models a raised
exception inside any category's maxima computation. -/
def summarize : List (List Artifact × List String) → Option (List Int × Bool)
  | [] => some ([], false)
  | (arts, names) :: rest =>
    if arts.isEmpty then summarize rest
    else do
      let maxes ← max_scores arts names
      let p ← summarize rest
      pure (maxes.sum :: p.1, p.2 || maxes.contains 5)

/-- `final_risk = sum(totals)` with the critical flag
`final_risk >= 21 or has_crit` (streamlit_app.py lines 257-261). -/
def final_risk (d : SessionData) : Option (Int × Bool) :=
  (summarize (category_list d)).map
    (fun p => (p.1.sum, decide (21 ≤ p.1.sum) || p.2))

/-- Specification-side category total: the sum of the per-check maxima. -/
def cat_total (arts : List Artifact) (names : List String) : Int :=
  (names.map (specCheckMax arts)).sum

/-- Specification-side review total: the sum of category totals over only the
categories containing at least one artifact. -/
def review_total_spec (d : SessionData) : Int :=
  (((category_list d).filter (fun p => !p.1.isEmpty)).map
    (fun p => cat_total p.1 p.2)).sum

/-- Specification-side critical flag from the per-check maxima: some
non-empty category has a per-check maximum of 5. -/
def has_crit_spec (d : SessionData) : Bool :=
  (category_list d).any
    (fun p => !p.1.isEmpty && (p.2.map (specCheckMax p.1)).contains 5)

/-- Every category of the session satisfies the all-checks-present
invariant. -/
def session_wf (d : SessionData) : Prop :=
  ∀ p ∈ category_list d, allChecksPresent p.1 p.2

instance (d : SessionData) : Decidable (session_wf d) := by
  unfold session_wf; infer_instance

/-- An artifact whose `checks` mapping lacks one of its category's check
names (used to exhibit the KeyError raised by the aggregation). -/
def c5_artifact : Artifact := ⟨"A1", [("Open-source license compliance", ⟨3, ""⟩)]⟩

/-- A JSON scalar value as the PDF path can meet it in a draft: an integer
score or a string (JSON numbers are modelled as integers). -/
inductive PyVal where
  | int (n : Int)
  | str (s : String)
deriving DecidableEq, Repr

/-- One element of an array-shaped `checks` list in the PDF generator's
input: `{"name": ..., "score": ..., "notes": ...}`, any key possibly
absent (`check.get` is used throughout). -/
structure CheckObj where
  name : Option String
  score : Option PyVal
  notes : Option String
deriving DecidableEq, Repr

/-- The characters Python's `str.strip()` removes (common whitespace). -/
def isPyWs (c : Char) : Bool :=
  c = ' ' || c = '\t' || c = '\n' || c = '\r' || c = '\x0b' || c = '\x0c'

/-- Python `s.strip()`: drop whitespace from both ends. -/
def pyStrip (s : String) : String :=
  String.mk (((s.data.dropWhile isPyWs).reverse.dropWhile isPyWs).reverse)

/-- `notes_raw.replace('\n', '<br/>')`, character by character. -/
def newlineToBr : List Char → List Char
  | [] => []
  | '\n' :: rest => '<' :: 'b' :: 'r' :: '/' :: '>' :: newlineToBr rest
  | c :: rest => c :: newlineToBr rest

/-- Python `s.replace('\n', '<br/>')`. -/
def pyReplaceNl (s : String) : String := String.mk (newlineToBr s.data)

/-- `calculate_total_risk` (json_to_pdf_longtable.py lines 112-118):
start from 0 and add `int(score)` for every check whose score is numeric,
silently skipping non-numeric or missing scores. -/
def calculate_total_risk (checks : List CheckObj) : Int :=
  checks.foldl (fun total check =>
    match check.score with
    | some (.int n) => total + n
    | _ => total) 0

/-- Specification-side total: the sum of the numeric score values only. -/
def numericSum (checks : List CheckObj) : Int :=
  (checks.filterMap (fun c => match c.score with
    | some (.int n) => some n
    | _ => none)).sum

/-- `MAX_NOTES_IN_TABLE = 800` (json_to_pdf_longtable.py line 26). -/
def MAX_NOTES_IN_TABLE : Nat := 800

/-- `notes_raw = (check.get("notes") or "").strip()` (line 135). -/
def notesRaw (c : CheckObj) : String := pyStrip (c.notes.getD "")

/-- `notes_html = notes_raw.replace('\n', '<br/>')` (line 136). -/
def notesHtml (c : CheckObj) : String := pyReplaceNl (notesRaw c)

/-- Python `f"{score}"` on the two scalar shapes. -/
def pyStr : PyVal → String
  | .int n => toString n
  | .str s => s

/-- `score_display = f"<b>{score}</b>" if score != "—" else "—"` with
`score = check.get("score", "—")` (lines 134, 137). -/
def score_display (c : CheckObj) : String :=
  let sv := c.score.getD (.str "—")
  if sv = .str "—" then "—" else "<b>" ++ pyStr sv ++ "</b>"

/-- The fixed header row of the check table (line 129). -/
def header_row : String × String × String := ("Check", "Risk Score", "Notes")

/-- The loop body of `create_check_elements` (lines 132-153): append one
table row, and for long notes also queue an expanded-notes block. -/
def check_row_step
    (acc : List (String × String × String) × List (String × String))
    (check : CheckObj) :
    List (String × String × String) × List (String × String) :=
  let name := check.name.getD "—"
  if MAX_NOTES_IN_TABLE < (notesRaw check).length then
    (acc.1 ++ [(name, score_display check, "<i>See details below ↓</i>")],
     acc.2 ++ [(name, notesHtml check)])
  else
    (acc.1 ++ [(name, score_display check,
        if notesHtml check = "" then "—" else notesHtml check)],
     acc.2)

/-- `create_check_elements` (lines 121-181): the table rows (header first)
and the queued `(check name, notes html)` expanded blocks rendered after
the table, in order. -/
def create_check_elements (checks : List CheckObj) :
    List (String × String × String) × List (String × String) :=
  checks.foldl check_row_step ([header_row], [])

/-- Specification-side: the table row of one check as the spec words it
(placeholder cell above the 800-character threshold, inline notes with line
breaks preserved otherwise, a dash for empty notes). -/
def rowOf (c : CheckObj) : String × String × String :=
  (c.name.getD "—", score_display c,
   if MAX_NOTES_IN_TABLE < (notesRaw c).length then "<i>See details below ↓</i>"
   else if notesHtml c = "" then "—" else notesHtml c)

/-- Specification-side: the expanded block of one check, present exactly
when the (stripped) notes text exceeds the 800-character threshold. -/
def expandedOf (c : CheckObj) : Option (String × String) :=
  if MAX_NOTES_IN_TABLE < (notesRaw c).length then
    some (c.name.getD "—", notesHtml c)
  else none

/-- The seven metadata fields of `create_metadata_table`
(json_to_pdf_longtable.py lines 185-193), in order. -/
def metadata_fields : List (String × String) :=
  [("proposal_title", "Proposal Title"),
   ("principal_investigator", "Principal Investigator"),
   ("proposal_date", "Proposal Date"),
   ("reviewer_name", "Reviewer Name"),
   ("reviewer_id", "Reviewer ID"),
   ("aimcr_date", "AIMCR Date"),
   ("project_id", "Project ID")]

/-- `create_metadata_table` (lines 184-201): one `(label cell, value)` row
per field, the value `metadata.get(key, "N/A")`. -/
def create_metadata_table (metadata : List (String × String)) :
    List (String × String) :=
  metadata_fields.map (fun kv =>
    ("<b>" ++ kv.2 ++ ":</b>", (dict_lookup metadata kv.1).getD "N/A"))

/-- `name = item.get("name", "").strip() or "(Unnamed component)"`
(json_to_pdf_longtable.py line 224). -/
def display_name (name : Option String) : String :=
  if pyStrip (name.getD "") = "" then "(Unnamed component)"
  else pyStrip (name.getD "")

/-- The two shapes a `checks` field can take in a loaded record: the
array-of-objects shape the PDF path expects, or the name-keyed mapping
shape the interactive app produces. -/
inductive ChecksField where
  | arr (items : List CheckObj)
  | dict (entries : List (String × CheckResult))
deriving DecidableEq, Repr

/-- Python truthiness of the checks container (`if checks:` at
json_to_pdf_longtable.py line 228): non-empty. -/
def checksTruthy : ChecksField → Bool
  | .arr l => !l.isEmpty
  | .dict l => !l.isEmpty

/-- One item (artifact object) of a category array in the PDF input. -/
structure ItemDyn where
  name : Option String
  checks : Option ChecksField
deriving DecidableEq, Repr

/-- One rendered artifact block of `add_component_section`: item header,
check table, expanded-notes blocks, and the artifact total (absent when
"No checks recorded." is shown instead). -/
structure RenderedItem where
  header : String
  table : List (String × String × String)
  expanded : List (String × String)
  total : Option Int
deriving DecidableEq, Repr

/-- The per-item body of `add_component_section` (json_to_pdf_longtable.py
lines 223-236).  When `checks` is dict-shaped and non-empty, the
`for check in checks` loop of `create_check_elements` (line 132) iterates
the dict's string keys and its first statement calls `check.get("name", "—")`
(line 133) on a string, raising `AttributeError` — modelled as `.error`. -/
def render_item (item : ItemDyn) : Except String RenderedItem :=
  let nm := display_name item.name
  let cf := item.checks.getD (.arr [])
  if checksTruthy cf then
    match cf with
    | .arr objs =>
      .ok ⟨nm, (create_check_elements objs).1, (create_check_elements objs).2,
           some (calculate_total_risk objs)⟩
    | .dict [] => .ok ⟨nm, [header_row], [], some 0⟩
    | .dict (_ :: _) =>
      .error "AttributeError: str object has no attribute get"
  else .ok ⟨nm, [], [], none⟩

/-- `add_component_section` (lines 215-238) for one category: render each
item in order; the first raised exception aborts document generation. -/
def add_component_section : List ItemDyn → Except String (List RenderedItem)
  | [] => .ok []
  | it :: rest =>
    match render_item it with
    | .error e => .error e
    | .ok r =>
      match add_component_section rest with
      | .error e => .error e
      | .ok rs => .ok (r :: rs)

/-- Whether an embedded computation ended in a raised exception. -/
def exceptFailed {α : Type} : Except String α → Bool
  | .error _ => true
  | .ok _ => false

/-- `+ Add Artifact` (streamlit_app.py lines 193-197): append a new
artifact named positionally, with every one of the category's checks
present at score 1 and empty notes. -/
def add_artifact (names : List String) (arts : List Artifact) : List Artifact :=
  arts ++ [⟨"Artifact " ++ toString (arts.length + 1),
            names.map (fun c => (c, ⟨1, ""⟩))⟩]

/-- Python dict assignment `d[k] = v`: replace in place when the key
exists, else append. -/
def dict_set (d : List (String × CheckResult)) (k : String) (v : CheckResult) :
    List (String × CheckResult) :=
  if (dict_lookup d k).isSome then
    d.map (fun p => if p.1 = k then (k, v) else p)
  else d ++ [(k, v)]

/-- The per-check edit
`artifact["checks"][check] = {"score": score, "notes": notes}`
(streamlit_app.py line 226) applied to the artifact at index `i`. -/
def edit_check : List Artifact → Nat → String → Int → String → List Artifact
  | [], _, _, _, _ => []
  | a :: rest, 0, c, s, nts =>
    { a with checks := dict_set a.checks c ⟨s, nts⟩ } :: rest
  | a :: rest, Nat.succ i, c, s, nts => a :: edit_check rest i c s nts

/-- `data[key].pop(idx)` (streamlit_app.py line 229). -/
def remove_artifact (arts : List Artifact) (i : Nat) : List Artifact :=
  arts.eraseIdx i

/-- The data-model invariant for one artifact: its `checks` mapping holds
exactly the category's check names, in order, each score in 1..5. -/
def wf_artifact (names : List String) (a : Artifact) : Prop :=
  a.checks.map Prod.fst = names ∧
  ∀ p ∈ a.checks, 1 ≤ p.2.score ∧ p.2.score ≤ 5

instance (names : List String) (a : Artifact) :
    Decidable (wf_artifact names a) := by
  unfold wf_artifact; infer_instance

/-- The invariant for a whole category. -/
def wf_section (names : List String) (arts : List Artifact) : Prop :=
  ∀ a ∈ arts, wf_artifact names a

instance (names : List String) (arts : List Artifact) :
    Decidable (wf_section names arts) := by
  unfold wf_section; infer_instance

/-- The full review record as the interactive app serializes it
(`st.session_state.data`, streamlit_app.py lines 116-129): seven string
metadata fields and the four artifact categories. -/
structure ReviewRecord where
  project_id : String
  proposal_title : String
  principal_investigator : String
  proposal_date : String
  reviewer_name : String
  reviewer_id : String
  crr_date : String
  third_party_software : List Artifact
  source_code : List Artifact
  datasets_user_files : List Artifact
  models : List Artifact
deriving DecidableEq, Repr

/-- Lower-case hexadecimal digit, as CPython's json encoder emits in
`\uXXXX` escapes. -/
def hexDigitChar : Nat → Char
  | 0 => '0' | 1 => '1' | 2 => '2' | 3 => '3' | 4 => '4' | 5 => '5'
  | 6 => '6' | 7 => '7' | 8 => '8' | 9 => '9' | 10 => 'a' | 11 => 'b'
  | 12 => 'c' | 13 => 'd' | 14 => 'e' | _ => 'f'

/-- How `json.dump(..., ensure_ascii=False)` escapes one character: `"`,
`\`, and the named control escapes; other control characters as `\u00XX`;
everything else (non-ASCII included) literally. -/
def jsonEscapeChar (c : Char) : List Char :=
  if c = '"' then ['\\', '"']
  else if c = '\\' then ['\\', '\\']
  else if c = '\n' then ['\\', 'n']
  else if c = '\t' then ['\\', 't']
  else if c = '\r' then ['\\', 'r']
  else if c = '\x08' then ['\\', 'b']
  else if c = '\x0c' then ['\\', 'f']
  else if c.toNat < 32 then
    ['\\', 'u', '0', '0', hexDigitChar (c.toNat / 16), hexDigitChar (c.toNat % 16)]
  else [c]

/-- Escape every character of a string body. -/
def escapeList : List Char → List Char
  | [] => []
  | c :: rest => jsonEscapeChar c ++ escapeList rest

/-- A JSON string literal: `"` body `"`. -/
def dumpString (s : String) : List Char :=
  '"' :: (escapeList s.data ++ ['"'])

/-- The decimal digit characters of a natural number. -/
def digitChar : Nat → Char
  | 0 => '0' | 1 => '1' | 2 => '2' | 3 => '3' | 4 => '4'
  | 5 => '5' | 6 => '6' | 7 => '7' | 8 => '8' | _ => '9'

/-- Decimal digits of a natural number, most significant first. -/
def natDigits (n : Nat) : List Char :=
  if h : n < 10 then [digitChar n]
  else natDigits (n / 10) ++ [digitChar (n % 10)]
decreasing_by exact Nat.div_lt_self (by omega) (by omega)

/-- A JSON integer as Python prints it. -/
def dumpInt (n : Int) : List Char :=
  if n < 0 then '-' :: natDigits n.natAbs else natDigits n.natAbs

/-- The indentation of `json.dump(..., indent=4)` at nesting depth `d`. -/
def pad (d : Nat) : List Char := List.replicate (4 * d) ' '

/-- One `{"score": ..., "notes": ...}` object at depth `d`. -/
def dumpCheckResult (d : Nat) (cr : CheckResult) : List Char :=
  ['{', '\n'] ++ pad (d + 1) ++ dumpString "score" ++ [':', ' '] ++
    dumpInt cr.score ++ [',', '\n'] ++ pad (d + 1) ++ dumpString "notes" ++
    [':', ' '] ++ dumpString cr.notes ++ ['\n'] ++ pad d ++ ['}']

/-- The entries of a checks mapping, comma-newline separated. -/
def dumpChecksEntries (d : Nat) : List (String × CheckResult) → List Char
  | [] => []
  | (k, v) :: rest =>
    pad d ++ dumpString k ++ [':', ' '] ++ dumpCheckResult d v ++
      (if rest.isEmpty then [] else [',', '\n'] ++ dumpChecksEntries d rest)

/-- A checks mapping object at depth `d` (`{}` when empty). -/
def dumpChecks (d : Nat) (entries : List (String × CheckResult)) : List Char :=
  if entries.isEmpty then ['{', '}']
  else ['{', '\n'] ++ dumpChecksEntries (d + 1) entries ++ ['\n'] ++ pad d ++ ['}']

/-- One artifact object at depth `d`. -/
def dumpArtifact (d : Nat) (a : Artifact) : List Char :=
  ['{', '\n'] ++ pad (d + 1) ++ dumpString "name" ++ [':', ' '] ++
    dumpString a.name ++ [',', '\n'] ++ pad (d + 1) ++ dumpString "checks" ++
    [':', ' '] ++ dumpChecks (d + 1) a.checks ++ ['\n'] ++ pad d ++ ['}']

/-- The items of an artifact array, comma-newline separated. -/
def dumpArtifactsItems (d : Nat) : List Artifact → List Char
  | [] => []
  | a :: rest =>
    pad d ++ dumpArtifact d a ++
      (if rest.isEmpty then [] else [',', '\n'] ++ dumpArtifactsItems d rest)

/-- An artifact array at depth `d` (`[]` when empty). -/
def dumpArtifacts (d : Nat) (items : List Artifact) : List Char :=
  if items.isEmpty then ['[', ']']
  else ['[', '\n'] ++ dumpArtifactsItems (d + 1) items ++ ['\n'] ++ pad d ++ [']']

/-- One string metadata field line of the record object, with its
trailing comma. -/
def dumpStrField (key : String) (value : String) : List Char :=
  pad 1 ++ dumpString key ++ [':', ' '] ++ dumpString value ++ [',', '\n']

/-- One artifact-list field of the record object (no trailing comma). -/
def dumpListField (key : String) (items : List Artifact) : List Char :=
  pad 1 ++ dumpString key ++ [':', ' '] ++ dumpArtifacts 1 items

/-- The serialized review record, exactly as
`json.dump(data, f, indent=4, ensure_ascii=False)` lays it out
(streamlit_app.py line 48): keys in the insertion order of lines 116-129. -/
def dumpRecord (r : ReviewRecord) : List Char :=
  ['{', '\n'] ++
  dumpStrField "project_id" r.project_id ++
  dumpStrField "proposal_title" r.proposal_title ++
  dumpStrField "principal_investigator" r.principal_investigator ++
  dumpStrField "proposal_date" r.proposal_date ++
  dumpStrField "reviewer_name" r.reviewer_name ++
  dumpStrField "reviewer_id" r.reviewer_id ++
  dumpStrField "crr_date" r.crr_date ++
  dumpListField "third_party_software" r.third_party_software ++ [',', '\n'] ++
  dumpListField "source_code" r.source_code ++ [',', '\n'] ++
  dumpListField "datasets_user_files" r.datasets_user_files ++ [',', '\n'] ++
  dumpListField "models" r.models ++
  ['\n', '}']

/-- `save_draft` (streamlit_app.py lines 43-50): the draft file's text. -/
def save_draft_text (r : ReviewRecord) : String := String.mk (dumpRecord r)

/-- JSON whitespace. -/
def isWsChar (c : Char) : Bool := c = ' ' || c = '\n' || c = '\t' || c = '\r'

/-- Skip insignificant whitespace. -/
def skipWs (input : List Char) : List Char := input.dropWhile isWsChar

/-- Consume one expected character. -/
def expectChar (c : Char) : List Char → Option (List Char)
  | [] => none
  | x :: rest => if x = c then some rest else none

/-- The value of one hexadecimal digit. -/
def hexVal (c : Char) : Option Nat :=
  if '0' ≤ c ∧ c ≤ '9' then some (c.toNat - 48)
  else if 'a' ≤ c ∧ c ≤ 'f' then some (c.toNat - 87)
  else if 'A' ≤ c ∧ c ≤ 'F' then some (c.toNat - 55)
  else none

/-- Decode one single-character escape. -/
def unescape1 (e : Char) : Option Char :=
  if e = '"' then some '"'
  else if e = '\\' then some '\\'
  else if e = '/' then some '/'
  else if e = 'n' then some '\n'
  else if e = 't' then some '\t'
  else if e = 'r' then some '\r'
  else if e = 'b' then some '\x08'
  else if e = 'f' then some '\x0c'
  else none

/-- Parse a JSON string body up to the closing quote, decoding escapes. -/
def parseStringBody : List Char → Option (List Char × List Char)
  | [] => none
  | c :: rest =>
    if c = '"' then some ([], rest)
    else if c = '\\' then
      match rest with
      | 'u' :: h1 :: h2 :: h3 :: h4 :: rest3 => do
        let v1 ← hexVal h1
        let v2 ← hexVal h2
        let v3 ← hexVal h3
        let v4 ← hexVal h4
        let p ← parseStringBody rest3
        pure (Char.ofNat (((v1 * 16 + v2) * 16 + v3) * 16 + v4) :: p.1, p.2)
      | e :: rest2 => do
        let u ← unescape1 e
        let p ← parseStringBody rest2
        pure (u :: p.1, p.2)
      | [] => none
    else
      (parseStringBody rest).map (fun p => (c :: p.1, p.2))

/-- Parse a JSON string literal (leading whitespace allowed). -/
def parseJString (input : List Char) : Option (String × List Char) := do
  let i0 ← expectChar '"' (skipWs input)
  let p ← parseStringBody i0
  pure (String.mk p.1, p.2)

/-- Greedily consume decimal digits, accumulating their value. -/
def parseDigitsAux : List Char → Nat → Nat × List Char
  | [], acc => (acc, [])
  | c :: rest, acc =>
    if c.isDigit then parseDigitsAux rest (acc * 10 + (c.toNat - 48))
    else (acc, c :: rest)

/-- Parse a natural number (at least one digit). -/
def parseNat : List Char → Option (Nat × List Char)
  | [] => none
  | c :: rest =>
    if c.isDigit then some (parseDigitsAux rest (c.toNat - 48)) else none

/-- Parse a JSON integer (optional sign). -/
def parseInt : List Char → Option (Int × List Char)
  | [] => none
  | c :: rest =>
    if c = '-' then (parseNat rest).map (fun p => (-(p.1 : Int), p.2))
    else (parseNat (c :: rest)).map (fun p => ((p.1 : Int), p.2))

/-- Parse the expected object key followed by its colon. -/
def parseKeyColon (key : String) (input : List Char) : Option (List Char) := do
  let p ← parseJString input
  if p.1 = key then expectChar ':' (skipWs p.2) else none

/-- Parse one `{"score": ..., "notes": ...}` object. -/
def parseCheckResult (input : List Char) : Option (CheckResult × List Char) := do
  let i0 ← expectChar '{' (skipWs input)
  let i1 ← parseKeyColon "score" i0
  let p1 ← parseInt (skipWs i1)
  let i2 ← expectChar ',' (skipWs p1.2)
  let i3 ← parseKeyColon "notes" i2
  let p2 ← parseJString i3
  let i4 ← expectChar '}' (skipWs p2.2)
  pure (⟨p1.1, p2.1⟩, i4)

/-- Parse the non-empty entry list of a checks mapping, up to and including
the closing brace.  The fuel bounds the number of entries. -/
def parseChecksEntries :
    Nat → List Char → Option (List (String × CheckResult) × List Char)
  | 0, _ => none
  | Nat.succ fuel, input => do
    let pk ← parseJString input
    let i1 ← expectChar ':' (skipWs pk.2)
    let pv ← parseCheckResult i1
    match expectChar ',' (skipWs pv.2) with
    | some i2 => do
      let pr ← parseChecksEntries fuel i2
      pure ((pk.1, pv.1) :: pr.1, pr.2)
    | none => do
      let i3 ← expectChar '}' (skipWs pv.2)
      pure ([(pk.1, pv.1)], i3)

/-- Parse a checks mapping object. -/
def parseChecks (fuel : Nat) (input : List Char) :
    Option (List (String × CheckResult) × List Char) := do
  let i0 ← expectChar '{' (skipWs input)
  match expectChar '}' (skipWs i0) with
  | some i1 => pure ([], i1)
  | none => parseChecksEntries fuel i0

/-- Parse one artifact object. -/
def parseArtifact (fuel : Nat) (input : List Char) :
    Option (Artifact × List Char) := do
  let i0 ← expectChar '{' (skipWs input)
  let i1 ← parseKeyColon "name" i0
  let pn ← parseJString i1
  let i2 ← expectChar ',' (skipWs pn.2)
  let i3 ← parseKeyColon "checks" i2
  let pc ← parseChecks fuel i3
  let i4 ← expectChar '}' (skipWs pc.2)
  pure (⟨pn.1, pc.1⟩, i4)

/-- Parse the non-empty item list of an artifact array, up to and
including the closing bracket. -/
def parseArtifactsItems : Nat → List Char → Option (List Artifact × List Char)
  | 0, _ => none
  | Nat.succ fuel, input => do
    let pa ← parseArtifact (Nat.succ fuel) input
    match expectChar ',' (skipWs pa.2) with
    | some i2 => do
      let pr ← parseArtifactsItems fuel i2
      pure (pa.1 :: pr.1, pr.2)
    | none => do
      let i3 ← expectChar ']' (skipWs pa.2)
      pure ([pa.1], i3)

/-- Parse an artifact array. -/
def parseArtifacts (fuel : Nat) (input : List Char) :
    Option (List Artifact × List Char) := do
  let i0 ← expectChar '[' (skipWs input)
  match expectChar ']' (skipWs i0) with
  | some i1 => pure ([], i1)
  | none => parseArtifactsItems fuel i0

/-- Parse one string metadata field. -/
def parseStrField (key : String) (input : List Char) :
    Option (String × List Char) := do
  let i ← parseKeyColon key input
  parseJString i

/-- Parse one artifact-list field. -/
def parseListField (fuel : Nat) (key : String) (input : List Char) :
    Option (List Artifact × List Char) := do
  let i ← parseKeyColon key input
  parseArtifacts fuel i

/-- Consume a separating comma. -/
def parseComma (input : List Char) : Option (List Char) :=
  expectChar ',' (skipWs input)

/-- Parse one string metadata field and its trailing comma. -/
def parseStrFieldComma (key : String) (input : List Char) :
    Option (String × List Char) := do
  let p ← parseStrField key input
  let i ← parseComma p.2
  pure (p.1, i)

/-- Parse one artifact-list field and its trailing comma. -/
def parseListFieldComma (fuel : Nat) (key : String) (input : List Char) :
    Option (List Artifact × List Char) := do
  let q ← parseListField fuel key input
  let i ← parseComma q.2
  pure (q.1, i)

/-- Parse the first four metadata fields of the record. -/
def parseMetaA (input : List Char) :
    Option ((String × String × String × String) × List Char) := do
  let p1 ← parseStrFieldComma "project_id" input
  let p2 ← parseStrFieldComma "proposal_title" p1.2
  let p3 ← parseStrFieldComma "principal_investigator" p2.2
  let p4 ← parseStrFieldComma "proposal_date" p3.2
  pure ((p1.1, p2.1, p3.1, p4.1), p4.2)

/-- Parse the last three metadata fields of the record. -/
def parseMetaB (input : List Char) :
    Option ((String × String × String) × List Char) := do
  let p5 ← parseStrFieldComma "reviewer_name" input
  let p6 ← parseStrFieldComma "reviewer_id" p5.2
  let p7 ← parseStrFieldComma "crr_date" p6.2
  pure ((p5.1, p6.1, p7.1), p7.2)

/-- Parse the four category arrays of the record. -/
def parseCats (fuel : Nat) (input : List Char) :
    Option ((List Artifact × List Artifact × List Artifact × List Artifact) ×
      List Char) := do
  let q1 ← parseListFieldComma fuel "third_party_software" input
  let q2 ← parseListFieldComma fuel "source_code" q1.2
  let q3 ← parseListFieldComma fuel "datasets_user_files" q2.2
  let q4 ← parseListField fuel "models" q3.2
  pure ((q1.1, q2.1, q3.1, q4.1), q4.2)

/-- Parse the whole review-record object in the draft layout. -/
def parseRecord (fuel : Nat) (input : List Char) :
    Option (ReviewRecord × List Char) := do
  let i0 ← expectChar '{' (skipWs input)
  let m1 ← parseMetaA i0
  let m2 ← parseMetaB m1.2
  let cs ← parseCats fuel m2.2
  let j ← expectChar '}' (skipWs cs.2)
  pure (⟨m1.1.1, m1.1.2.1, m1.1.2.2.1, m1.1.2.2.2,
         m2.1.1, m2.1.2.1, m2.1.2.2,
         cs.1.1, cs.1.2.1, cs.1.2.2.1, cs.1.2.2.2⟩, j)

/-- `load_draft` (streamlit_app.py lines 52-57): parse the draft file's
text back into a record (the whole text must be consumed). -/
def load_draft (s : String) : Option ReviewRecord := do
  let p ← parseRecord (s.length + 1) s.data
  if (skipWs p.2).isEmpty then pure p.1 else none

/-- The input does not start with a decimal digit (used to delimit greedy
number parsing). -/
def noLeadDigit : List Char → Prop
  | [] => True
  | c :: _ => c.isDigit = false

lemma pyListMap_eq_map {α β : Type} (f : α → Option β) (g : α → β)
    (l : List α) (h : ∀ x ∈ l, f x = some (g x)) :
    pyListMap f l = some (l.map g) := by
  induction l with
  | nil => rfl
  | cons x xs ih =>
    have hx := h x (List.mem_cons_self x xs)
    have ht := ih (fun y hy => h y (List.mem_cons_of_mem x hy))
    simp [pyListMap, hx, ht]

lemma scoresAt_eq_of_present (arts : List Artifact) (c : String)
    (h : ∀ a ∈ arts, (dict_lookup a.checks c).isSome) :
    scoresAt arts c = some (arts.map (scoreOf · c)) := by
  apply pyListMap_eq_map
  intro a ha
  rcases Option.isSome_iff_exists.mp (h a ha) with ⟨cr, hcr⟩
  simp [scoreOf, hcr]

lemma presentScores_eq_of_present (arts : List Artifact) (c : String)
    (h : ∀ a ∈ arts, (dict_lookup a.checks c).isSome) :
    presentScores arts c = arts.map (scoreOf · c) := by
  induction arts with
  | nil => rfl
  | cons a rest ih =>
    have ha := h a (List.mem_cons_self a rest)
    rcases Option.isSome_iff_exists.mp ha with ⟨cr, hcr⟩
    have ht := ih (fun y hy => h y (List.mem_cons_of_mem a hy))
    simp [presentScores, hcr, scoreOf] at ht ⊢
    exact ht

lemma checkMax_eq_spec (arts : List Artifact) (c : String)
    (hne : arts ≠ [])
    (h : ∀ a ∈ arts, (dict_lookup a.checks c).isSome) :
    checkMax arts c = some (specCheckMax arts c) := by
  have hs := scoresAt_eq_of_present arts c h
  have hp := presentScores_eq_of_present arts c h
  have hnil : arts.map (scoreOf · c) ≠ [] := by
    cases arts with
    | nil => exact absurd rfl hne
    | cons a rest => simp
  rcases hm : (arts.map (scoreOf · c)).max? with _ | m
  · exact absurd (List.max?_eq_none_iff.mp hm) hnil
  · simp [checkMax, hs, pymax, hm, specCheckMax, hp]

lemma max_scores_eq_spec (arts : List Artifact) (names : List String)
    (hne : arts ≠ []) (h : allChecksPresent arts names) :
    max_scores arts names = some (names.map (specCheckMax arts)) := by
  apply pyListMap_eq_map
  intro c hc
  exact checkMax_eq_spec arts c hne (fun a ha => h a ha c hc)

lemma levelOf_eq_severity_spec (maxes : List Int) :
    levelOf maxes = severity_spec maxes := by
  simp [levelOf, severity_spec, List.contains, List.elem_eq_mem]

lemma specCheckMax_mem_and_bound (arts : List Artifact) (c : String)
    (hne : arts ≠ [])
    (h : ∀ a ∈ arts, (dict_lookup a.checks c).isSome) :
    specCheckMax arts c ∈ presentScores arts c ∧
      ∀ s ∈ presentScores arts c, s ≤ specCheckMax arts c := by
  have hp := presentScores_eq_of_present arts c h
  have hnil : presentScores arts c ≠ [] := by
    rw [hp]
    cases arts with
    | nil => exact absurd rfl hne
    | cons a rest => simp
  rcases hm : (presentScores arts c).max? with _ | m
  · exact absurd (List.max?_eq_none_iff.mp hm) hnil
  · constructor
    · have := List.max?_mem (fun a b : Int => max_choice a b) hm
      simpa [specCheckMax, hm] using this
    · intro s hs
      have := (List.max?_le_iff (fun a b c : Int => max_le_iff) hm).mp
        le_rfl s hs
      simpa [specCheckMax, hm] using this

lemma summarize_eq_spec (l : List (List Artifact × List String))
    (h : ∀ p ∈ l, allChecksPresent p.1 p.2) :
    summarize l = some
      ((l.filter (fun p => !p.1.isEmpty)).map (fun p => cat_total p.1 p.2),
       l.any (fun p => !p.1.isEmpty && (p.2.map (specCheckMax p.1)).contains 5)) := by
  induction l with
  | nil => rfl
  | cons p rest ih =>
    have hp := h p (List.mem_cons_self p rest)
    have ht := ih (fun q hq => h q (List.mem_cons_of_mem p hq))
    by_cases he : p.1.isEmpty
    · simp [summarize, he, ht]
    · have hne : p.1 ≠ [] := by
        cases hl : p.1 with
        | nil => rw [hl] at he; exact absurd rfl he
        | cons x xs => simp
      have hms := max_scores_eq_spec p.1 p.2 hne hp
      simp [summarize, he, hms, ht, cat_total, Bool.or_comm]

lemma pyListMap_eq_none {α β : Type} (f : α → Option β) (l : List α)
    (x : α) (hx : x ∈ l) (hfx : f x = none) :
    pyListMap f l = none := by
  induction l with
  | nil => cases hx
  | cons y ys ih =>
    rcases List.mem_cons.mp hx with hxy | hxt
    · subst hxy; simp [pyListMap, hfx]
    · cases hfy : f y with
      | none => simp [pyListMap, hfy]
      | some v => simp [pyListMap, hfy, ih hxt]

lemma max_scores_none_of_missing (arts : List Artifact) (names : List String)
    (a : Artifact) (c : String) (ha : a ∈ arts) (hc : c ∈ names)
    (hmiss : dict_lookup a.checks c = none) :
    max_scores arts names = none := by
  have hs : scoresAt arts c = none := by
    apply pyListMap_eq_none _ _ a ha
    simp [hmiss]
  have hck : checkMax arts c = none := by simp [checkMax, hs]
  exact pyListMap_eq_none _ _ c hc hck

lemma summarize_none_of_failure (l : List (List Artifact × List String))
    (arts : List Artifact) (names : List String) (hp : (arts, names) ∈ l)
    (hne : arts.isEmpty = false) (hfail : max_scores arts names = none) :
    summarize l = none := by
  induction l with
  | nil => cases hp
  | cons q rest ih =>
    rcases List.mem_cons.mp hp with hpq | hpt
    · rw [← hpq]
      simp [summarize, hne, hfail]
    · cases q with
      | mk arts2 names2 =>
        by_cases he2 : arts2.isEmpty
        · simpa [summarize, he2] using ih hpt
        · cases hms : max_scores arts2 names2 with
          | none => simp [summarize, he2, hms]
          | some m => simp [summarize, he2, hms, ih hpt]

lemma calculate_total_risk_go (checks : List CheckObj) : ∀ t0 : Int,
    checks.foldl (fun total check => match check.score with
      | some (.int n) => total + n
      | _ => total) t0 = t0 + numericSum checks := by
  induction checks with
  | nil => intro t0; simp [numericSum]
  | cons c cs ih =>
    intro t0
    cases hs : c.score with
    | none =>
      simpa [numericSum, List.filterMap_cons, hs] using ih t0
    | some v =>
      cases v with
      | int n =>
        have := ih (t0 + n)
        simp only [List.foldl_cons, hs] at this ⊢
        rw [this]
        simp [numericSum, List.filterMap_cons, hs]
        ring
      | str s =>
        simpa [numericSum, List.filterMap_cons, hs] using ih t0

lemma foldl_check_row_step (checks : List CheckObj) :
    ∀ (t0 : List (String × String × String)) (e0 : List (String × String)),
    checks.foldl check_row_step (t0, e0) =
      (t0 ++ checks.map rowOf, e0 ++ checks.filterMap expandedOf) := by
  induction checks with
  | nil => intro t0 e0; simp
  | cons c cs ih =>
    intro t0 e0
    by_cases hl : MAX_NOTES_IN_TABLE < (notesRaw c).length
    · simp [check_row_step, hl, ih, rowOf, expandedOf, List.filterMap_cons,
        List.append_assoc]
    · simp [check_row_step, hl, ih, rowOf, expandedOf, List.filterMap_cons,
        List.append_assoc]

lemma create_check_elements_eq (checks : List CheckObj) :
    create_check_elements checks =
      (header_row :: checks.map rowOf, checks.filterMap expandedOf) := by
  have h := foldl_check_row_step checks [header_row] []
  simpa [create_check_elements] using h

lemma max_scores_singleton (a : Artifact) (names : List String)
    (h : ∀ c ∈ names, (dict_lookup a.checks c).isSome) :
    max_scores [a] names = some (names.map (scoreOf a)) := by
  apply pyListMap_eq_map
  intro c hc
  rcases Option.isSome_iff_exists.mp (h c hc) with ⟨cr, hcr⟩
  simp [checkMax, scoresAt, pyListMap, hcr, pymax, List.max?, scoreOf]

lemma add_component_section_error (items : List ItemDyn) (it : ItemDyn)
    (hmem : it ∈ items) (herr : exceptFailed (render_item it) = true) :
    exceptFailed (add_component_section items) = true := by
  induction items with
  | nil => cases hmem
  | cons x xs ih =>
    rcases List.mem_cons.mp hmem with h | h
    · cases hr : render_item x with
      | error e => simp [add_component_section, hr, exceptFailed]
      | ok v => rw [h, hr] at herr; simp [exceptFailed] at herr
    · cases hr : render_item x with
      | error e => simp [add_component_section, hr, exceptFailed]
      | ok v =>
        have hx := ih h
        cases hs : add_component_section xs with
        | error e2 => simp [add_component_section, hr, hs, exceptFailed]
        | ok vs => rw [hs] at hx; simp [exceptFailed] at hx

lemma dict_lookup_map_const (names : List String) (c : String)
    (v : CheckResult) (hc : c ∈ names) :
    dict_lookup (names.map (fun c2 => (c2, v))) c = some v := by
  induction names with
  | nil => cases hc
  | cons n ns ih =>
    by_cases h : n = c
    · simp [dict_lookup, h]
    · rcases List.mem_cons.mp hc with h2 | h2
      · exact absurd h2.symm h
      · simp [dict_lookup, h, ih h2]

lemma dict_lookup_isSome_of_key_mem (d : List (String × CheckResult))
    (c : String) (hc : c ∈ d.map Prod.fst) : (dict_lookup d c).isSome := by
  induction d with
  | nil => cases hc
  | cons p rest ih =>
    obtain ⟨k, v⟩ := p
    rw [List.map_cons] at hc
    by_cases hk : k = c
    · simp [dict_lookup, hk]
    · rcases List.mem_cons.mp hc with h | h
      · exact absurd h.symm hk
      · simpa [dict_lookup, hk] using ih h

lemma dict_set_keys (d : List (String × CheckResult)) (c : String)
    (v : CheckResult) (hsome : (dict_lookup d c).isSome) :
    (dict_set d c v).map Prod.fst = d.map Prod.fst := by
  rw [dict_set, if_pos hsome, List.map_map]
  apply List.map_congr_left
  intro p _
  by_cases h : p.1 = c
  · simp [h]
  · simp [h]

lemma dict_set_mem (d : List (String × CheckResult)) (c : String)
    (v : CheckResult) (hsome : (dict_lookup d c).isSome)
    (q : String × CheckResult) (hq : q ∈ dict_set d c v) :
    q = (c, v) ∨ q ∈ d := by
  rw [dict_set, if_pos hsome] at hq
  rcases List.mem_map.mp hq with ⟨p, hp, hpe⟩
  by_cases h : p.1 = c
  · left; rw [← hpe]; simp [h]
  · right; rw [← hpe]; simp [h]; exact hp

lemma wf_artifact_edit (names : List String) (a : Artifact) (c : String)
    (s : Int) (nts : String) (hwf : wf_artifact names a) (hc : c ∈ names)
    (hs1 : 1 ≤ s) (hs5 : s ≤ 5) :
    wf_artifact names { a with checks := dict_set a.checks c ⟨s, nts⟩ } := by
  obtain ⟨hkeys, hsc⟩ := hwf
  have hsome : (dict_lookup a.checks c).isSome := by
    apply dict_lookup_isSome_of_key_mem
    rw [hkeys]; exact hc
  constructor
  · show (dict_set a.checks c ⟨s, nts⟩).map Prod.fst = names
    rw [dict_set_keys _ _ _ hsome, hkeys]
  · intro q hq
    rcases dict_set_mem _ _ _ hsome q hq with h | h
    · rw [h]; exact ⟨hs1, hs5⟩
    · exact hsc q h

lemma wf_section_edit (names : List String) (arts : List Artifact)
    (hwf : wf_section names arts) :
    ∀ i c s nts, c ∈ names → 1 ≤ s → s ≤ 5 →
    wf_section names (edit_check arts i c s nts) := by
  induction arts with
  | nil =>
    intro i c s nts _ _ _ a ha
    cases i <;> simp [edit_check] at ha
  | cons a rest ih =>
    intro i c s nts hc h1 h5 b hb
    cases i with
    | zero =>
      rw [edit_check] at hb
      rcases List.mem_cons.mp hb with h | h
      · subst h
        exact wf_artifact_edit names a c s nts
          (hwf a (List.mem_cons_self a rest)) hc h1 h5
      · exact hwf b (List.mem_cons_of_mem a h)
    | succ j =>
      rw [edit_check] at hb
      rcases List.mem_cons.mp hb with h | h
      · subst h; exact hwf b (List.mem_cons_self b rest)
      · exact ih (fun x hx => hwf x (List.mem_cons_of_mem a hx))
          j c s nts hc h1 h5 b h

lemma wf_section_add (names : List String) (arts : List Artifact)
    (hwf : wf_section names arts) :
    wf_section names (add_artifact names arts) := by
  intro a ha
  rw [add_artifact] at ha
  rcases List.mem_append.mp ha with h | h
  · exact hwf a h
  · rcases List.mem_singleton.mp h with rfl
    constructor
    · show (names.map (fun c => (c, (⟨1, ""⟩ : CheckResult)))).map Prod.fst = names
      rw [List.map_map]
      have hcomp : (Prod.fst ∘ fun c : String => (c, (⟨1, ""⟩ : CheckResult))) = id := rfl
      rw [hcomp, List.map_id]
    · intro p hp
      rcases List.mem_map.mp hp with ⟨c, _, rfl⟩
      exact ⟨le_refl 1, by norm_num⟩

lemma mem_of_mem_eraseIdx_aimcr {α : Type} (l : List α) (i : Nat) (a : α)
    (h : a ∈ l.eraseIdx i) : a ∈ l := by
  induction l generalizing i with
  | nil => rw [List.eraseIdx_nil] at h; cases h
  | cons x xs ih =>
    cases i with
    | zero =>
      rw [List.eraseIdx_cons_zero] at h
      exact List.mem_cons_of_mem x h
    | succ j =>
      rw [List.eraseIdx_cons_succ] at h
      rcases List.mem_cons.mp h with h1 | h2
      · exact h1 ▸ List.mem_cons_self x xs
      · exact List.mem_cons_of_mem x (ih j h2)

lemma skipWs_cons_ws (c : Char) (h : isWsChar c = true) (l : List Char) :
    skipWs (c :: l) = skipWs l := by
  simp [skipWs, List.dropWhile_cons, h]

lemma skipWs_cons_nws (c : Char) (h : isWsChar c = false) (l : List Char) :
    skipWs (c :: l) = c :: l := by
  simp [skipWs, List.dropWhile_cons, h]

lemma skipWs_replicate_space (n : Nat) (l : List Char) :
    skipWs (List.replicate n ' ' ++ l) = skipWs l := by
  induction n with
  | zero => simp
  | succ m ih =>
    rw [List.replicate_succ, List.cons_append, skipWs_cons_ws _ (by decide), ih]

lemma skipWs_pad (d : Nat) (l : List Char) : skipWs (pad d ++ l) = skipWs l :=
  skipWs_replicate_space _ l

lemma expectChar_cons (c : Char) (l : List Char) :
    expectChar c (c :: l) = some l := by
  simp [expectChar]

lemma string_mk_data (s : String) : String.mk s.data = s := by
  cases s with
  | mk d => rfl

lemma hexVal_hexDigitChar : ∀ m < 16, hexVal (hexDigitChar m) = some m := by
  decide

lemma hexVal_zero : hexVal '0' = some 0 := by decide

lemma parseStringBody_escape (c : Char) (l cs r : List Char)
    (hl : parseStringBody l = some (cs, r)) :
    parseStringBody (jsonEscapeChar c ++ l) = some (c :: cs, r) := by
  by_cases h1 : c = '"'
  · subst h1; simp [jsonEscapeChar, parseStringBody, unescape1, hl]
  · by_cases h2 : c = '\\'
    · subst h2; simp [jsonEscapeChar, parseStringBody, unescape1, hl]
    · by_cases h3 : c = '\n'
      · subst h3; simp [jsonEscapeChar, parseStringBody, unescape1, hl]
      · by_cases h4 : c = '\t'
        · subst h4; simp [jsonEscapeChar, parseStringBody, unescape1, hl]
        · by_cases h5 : c = '\r'
          · subst h5; simp [jsonEscapeChar, parseStringBody, unescape1, hl]
          · by_cases h6 : c = '\x08'
            · subst h6; simp [jsonEscapeChar, parseStringBody, unescape1, hl]
            · by_cases h7 : c = '\x0c'
              · subst h7
                simp [jsonEscapeChar, parseStringBody, unescape1, hl]
              · by_cases h8 : c.toNat < 32
                · have hesc : jsonEscapeChar c =
                      ['\\', 'u', '0', '0', hexDigitChar (c.toNat / 16),
                       hexDigitChar (c.toNat % 16)] := by
                    simp [jsonEscapeChar, h1, h2, h3, h4, h5, h6, h7, h8]
                  rw [hesc]
                  have hv1 : hexVal (hexDigitChar (c.toNat / 16)) =
                      some (c.toNat / 16) :=
                    hexVal_hexDigitChar _ (by omega)
                  have hv2 : hexVal (hexDigitChar (c.toNat % 16)) =
                      some (c.toNat % 16) :=
                    hexVal_hexDigitChar _ (by omega)
                  simp [parseStringBody, hexVal_zero, hv1, hv2, hl]
                  have h9 : c.toNat / 16 * 16 + c.toNat % 16 = c.toNat := by
                    omega
                  rw [h9, Char.ofNat_toNat]
                · have hesc : jsonEscapeChar c = [c] := by
                    simp [jsonEscapeChar, h1, h2, h3, h4, h5, h6, h7, h8]
                  rw [hesc, List.singleton_append, parseStringBody.eq_def]
                  simp [h1, h2, hl]

lemma parseStringBody_rt (cs : List Char) : ∀ rest : List Char,
    parseStringBody (escapeList cs ++ ('"' :: rest)) = some (cs, rest) := by
  induction cs with
  | nil =>
    intro rest
    rw [escapeList, List.nil_append, parseStringBody.eq_def]
    simp
  | cons c cs2 ih =>
    intro rest
    rw [escapeList, List.append_assoc]
    exact parseStringBody_escape c _ cs2 rest (ih rest)

lemma parseJString_rt (s : String) (rest : List Char) :
    parseJString (dumpString s ++ rest) = some (s, rest) := by
  unfold parseJString dumpString
  rw [List.cons_append, skipWs_cons_nws _ (by decide), expectChar_cons,
    List.append_assoc, List.singleton_append]
  simp [parseStringBody_rt, string_mk_data]

lemma parseJString_ws (c : Char) (h : isWsChar c = true) (l : List Char) :
    parseJString (c :: l) = parseJString l := by
  unfold parseJString
  rw [skipWs_cons_ws c h]

lemma parseJString_pad (d : Nat) (l : List Char) :
    parseJString (pad d ++ l) = parseJString l := by
  unfold parseJString
  rw [skipWs_pad]

lemma digitChar_facts : ∀ m < 10, (digitChar m).isDigit = true ∧
    (digitChar m).toNat - 48 = m ∧ isWsChar (digitChar m) = false ∧
    (digitChar m = '-') = False := by
  decide

lemma natDigits_ne_nil (n : Nat) : natDigits n ≠ [] := by
  rw [natDigits]
  split
  · simp
  · simp

lemma natDigits_all (n : Nat) :
    ∀ c ∈ natDigits n, c.isDigit = true := by
  induction n using Nat.strong_induction_on with
  | _ n ih =>
    rw [natDigits]
    split
    next h =>
      intro c hc
      rw [List.mem_singleton] at hc
      subst hc
      exact (digitChar_facts n h).1
    next h =>
      intro c hc
      rcases List.mem_append.mp hc with h2 | h2
      · exact ih (n / 10) (Nat.div_lt_self (by omega) (by omega)) c h2
      · rw [List.mem_singleton] at h2
        subst h2
        exact (digitChar_facts (n % 10) (by omega)).1

lemma natDigits_foldl (n : Nat) : ∀ acc : Nat,
    (natDigits n).foldl (fun a c => a * 10 + (c.toNat - 48)) acc =
      acc * 10 ^ (natDigits n).length + n := by
  induction n using Nat.strong_induction_on with
  | _ n ih =>
    intro acc
    rw [natDigits]
    split
    next h =>
      simp [List.foldl_cons, (digitChar_facts n h).2.1]
    next h =>
      rw [List.foldl_append,
        ih (n / 10) (Nat.div_lt_self (by omega) (by omega)) acc,
        List.foldl_cons, List.foldl_nil, List.length_append,
        (digitChar_facts (n % 10) (by omega)).2.1]
      have expand :
          (acc * 10 ^ (natDigits (n / 10)).length + n / 10) * 10 + n % 10 =
            acc * (10 ^ (natDigits (n / 10)).length * 10) +
              (n / 10 * 10 + n % 10) := by ring
      rw [expand]
      have hdm : n / 10 * 10 + n % 10 = n := by omega
      rw [hdm, List.length_singleton, pow_succ]

lemma parseDigitsAux_spec (ds : List Char) : ∀ (acc : Nat) (rest : List Char),
    (∀ c ∈ ds, c.isDigit = true) → noLeadDigit rest →
    parseDigitsAux (ds ++ rest) acc =
      (ds.foldl (fun a c => a * 10 + (c.toNat - 48)) acc, rest) := by
  induction ds with
  | nil =>
    intro acc rest _ hrest
    cases rest with
    | nil => simp [parseDigitsAux]
    | cons c cr =>
      simp only [noLeadDigit] at hrest
      simp [parseDigitsAux, hrest]
  | cons c ds2 ih =>
    intro acc rest hds hrest
    have hc := hds c (List.mem_cons_self c ds2)
    rw [List.cons_append]
    simp only [parseDigitsAux, hc, if_true, List.foldl_cons]
    exact ih _ rest (fun x hx => hds x (List.mem_cons_of_mem _ hx)) hrest

lemma parseNat_rt (m : Nat) (rest : List Char) (hrest : noLeadDigit rest) :
    parseNat (natDigits m ++ rest) = some (m, rest) := by
  have hne := natDigits_ne_nil m
  have hall := natDigits_all m
  have hfold := natDigits_foldl m 0
  cases hnd : natDigits m with
  | nil => exact absurd hnd hne
  | cons c ds =>
    rw [hnd] at hall hfold
    have hc := hall c (List.mem_cons_self c ds)
    rw [List.cons_append]
    simp only [parseNat, hc, if_true]
    rw [parseDigitsAux_spec ds (c.toNat - 48) rest
      (fun x hx => hall x (List.mem_cons_of_mem _ hx)) hrest]
    rw [List.foldl_cons] at hfold
    simp only [Nat.zero_mul, Nat.zero_add] at hfold
    rw [hfold]

lemma parseInt_rt (n : Int) (rest : List Char) (hrest : noLeadDigit rest) :
    parseInt (dumpInt n ++ rest) = some (n, rest) := by
  by_cases hneg : n < 0
  · rw [dumpInt, if_pos hneg, List.cons_append, parseInt.eq_def]
    simp [parseNat_rt n.natAbs rest hrest]
    rw [abs_of_neg hneg]
    omega
  · rw [dumpInt, if_neg hneg]
    have hne := natDigits_ne_nil n.natAbs
    have hall := natDigits_all n.natAbs
    cases hnd : natDigits n.natAbs with
    | nil => exact absurd hnd hne
    | cons c ds =>
      rw [hnd] at hall
      have hc := hall c (List.mem_cons_self c ds)
      have hcm : ¬ c = '-' := by
        intro habs
        rw [habs] at hc
        simp [Char.isDigit] at hc
      have hpn : parseNat (c :: (ds ++ rest)) = some (n.natAbs, rest) := by
        rw [← List.cons_append, ← hnd]
        exact parseNat_rt n.natAbs rest hrest
      rw [List.cons_append, parseInt.eq_def]
      have hval : ((n.natAbs : Nat) : Int) = n := by omega
      simp [hcm, hpn, hval]

lemma noLeadDigit_cons (c : Char) (l : List Char) (h : c.isDigit = false) :
    noLeadDigit (c :: l) := h

lemma not_ws_of_digit (c : Char) (h : c.isDigit = true) : isWsChar c = false := by
  have h1 : ¬ c = ' ' := fun e => by rw [e] at h; simp [Char.isDigit] at h
  have h2 : ¬ c = '\n' := fun e => by rw [e] at h; simp [Char.isDigit] at h
  have h3 : ¬ c = '\t' := fun e => by rw [e] at h; simp [Char.isDigit] at h
  have h4 : ¬ c = '\r' := fun e => by rw [e] at h; simp [Char.isDigit] at h
  simp [isWsChar, h1, h2, h3, h4]

lemma skipWs_dumpInt (n : Int) (l : List Char) :
    skipWs (dumpInt n ++ l) = dumpInt n ++ l := by
  rw [dumpInt]
  split
  · rw [List.cons_append, skipWs_cons_nws _ (by decide)]
  · have hne := natDigits_ne_nil n.natAbs
    have hall := natDigits_all n.natAbs
    cases hnd : natDigits n.natAbs with
    | nil => exact absurd hnd hne
    | cons c ds =>
      rw [hnd] at hall
      have hc := hall c (List.mem_cons_self c ds)
      rw [List.cons_append, skipWs_cons_nws _ (not_ws_of_digit c hc)]

lemma parseKeyColon_rt (key : String) (l : List Char) :
    parseKeyColon key (dumpString key ++ (':' :: l)) = some l := by
  unfold parseKeyColon
  rw [parseJString_rt]
  simp [skipWs_cons_nws _ (by decide : isWsChar ':' = false), expectChar_cons]

lemma parseKeyColon_ws (key : String) (c : Char) (h : isWsChar c = true)
    (l : List Char) : parseKeyColon key (c :: l) = parseKeyColon key l := by
  unfold parseKeyColon
  rw [parseJString_ws c h]

lemma parseKeyColon_pad (key : String) (d : Nat) (l : List Char) :
    parseKeyColon key (pad d ++ l) = parseKeyColon key l := by
  unfold parseKeyColon
  rw [parseJString_pad]

lemma parseCheckResult_rt (d : Nat) (cr : CheckResult) (rest : List Char) :
    parseCheckResult (dumpCheckResult d cr ++ rest) = some (cr, rest) := by
  unfold parseCheckResult dumpCheckResult
  simp only [List.append_assoc, List.cons_append, List.nil_append]
  rw [skipWs_cons_nws _ (by decide), expectChar_cons]
  simp only [Option.bind_eq_bind, Option.some_bind, Option.pure_def]
  rw [parseKeyColon_ws _ _ (by decide), parseKeyColon_pad, parseKeyColon_rt]
  simp only [Option.bind_eq_bind, Option.some_bind, Option.pure_def]
  rw [skipWs_cons_ws _ (by decide), skipWs_dumpInt,
    parseInt_rt _ _ (noLeadDigit_cons _ _ (by decide))]
  simp only [Option.bind_eq_bind, Option.some_bind, Option.pure_def]
  rw [skipWs_cons_nws _ (by decide), expectChar_cons]
  simp only [Option.bind_eq_bind, Option.some_bind, Option.pure_def]
  rw [parseKeyColon_ws _ _ (by decide), parseKeyColon_pad, parseKeyColon_rt]
  simp only [Option.bind_eq_bind, Option.some_bind, Option.pure_def]
  rw [parseJString_ws _ (by decide), parseJString_rt]
  simp only [Option.bind_eq_bind, Option.some_bind, Option.pure_def]
  rw [skipWs_cons_ws _ (by decide), skipWs_pad, skipWs_cons_nws _ (by decide),
    expectChar_cons]
  simp only [Option.bind_eq_bind, Option.some_bind, Option.pure_def]

lemma parseCheckResult_ws (c : Char) (h : isWsChar c = true) (l : List Char) :
    parseCheckResult (c :: l) = parseCheckResult l := by
  unfold parseCheckResult
  rw [skipWs_cons_ws c h]

lemma skipWs_dumpString (s : String) (l : List Char) :
    skipWs (dumpString s ++ l) = dumpString s ++ l := by
  rw [dumpString, List.cons_append, skipWs_cons_nws _ (by decide)]

lemma parseChecksEntries_ws (fuel : Nat) (c : Char) (h : isWsChar c = true)
    (l : List Char) :
    parseChecksEntries fuel (c :: l) = parseChecksEntries fuel l := by
  cases fuel with
  | zero => rfl
  | succ f =>
    unfold parseChecksEntries
    rw [parseJString_ws c h]

lemma dumpChecksEntries_single (d : Nat) (k : String) (v : CheckResult) :
    dumpChecksEntries d [(k, v)] =
      pad d ++ (dumpString k ++ (':' :: (' ' :: dumpCheckResult d v))) := by
  rw [dumpChecksEntries]
  simp [List.append_assoc]

lemma dumpChecksEntries_cons2 (d : Nat) (k : String) (v : CheckResult)
    (e2 : String × CheckResult) (tl : List (String × CheckResult)) :
    dumpChecksEntries d ((k, v) :: e2 :: tl) =
      pad d ++ (dumpString k ++ (':' :: (' ' :: (dumpCheckResult d v ++
        (',' :: ('\n' :: dumpChecksEntries d (e2 :: tl))))))) := by
  rw [dumpChecksEntries]
  simp [List.append_assoc]

lemma dumpChecks_cons (d : Nat) (e : String × CheckResult)
    (tl : List (String × CheckResult)) :
    dumpChecks d (e :: tl) =
      '{' :: ('\n' :: (dumpChecksEntries (d + 1) (e :: tl) ++
        ('\n' :: (pad d ++ ['}'])))) := by
  rw [dumpChecks]
  simp [List.append_assoc]

lemma parseChecksEntries_rt (entries : List (String × CheckResult))
    (hne : entries ≠ []) :
    ∀ fuel, entries.length ≤ fuel → ∀ dd dc (rest : List Char),
    parseChecksEntries fuel
      (dumpChecksEntries dd entries ++ ('\n' :: (pad dc ++ ('}' :: rest)))) =
      some (entries, rest) := by
  induction entries with
  | nil => exact absurd rfl hne
  | cons e tail ih =>
    obtain ⟨k, v⟩ := e
    intro fuel hfuel dd dc rest
    cases fuel with
    | zero => simp at hfuel
    | succ f =>
      cases htail : tail with
      | nil =>
        rw [dumpChecksEntries_single]
        simp only [List.append_assoc, List.cons_append, List.nil_append]
        unfold parseChecksEntries
        rw [parseJString_pad, parseJString_rt]
        simp only [Option.bind_eq_bind, Option.some_bind, Option.pure_def]
        rw [skipWs_cons_nws _ (by decide), expectChar_cons]
        simp only [Option.bind_eq_bind, Option.some_bind]
        rw [parseCheckResult_ws _ (by decide), parseCheckResult_rt]
        simp only [Option.bind_eq_bind, Option.some_bind]
        have hskip : skipWs ('\n' :: (pad dc ++ ('}' :: rest))) = '}' :: rest := by
          rw [skipWs_cons_ws _ (by decide), skipWs_pad,
            skipWs_cons_nws _ (by decide)]
        rw [hskip]
        simp [expectChar]
      | cons e2 tail2 =>
        rw [dumpChecksEntries_cons2]
        simp only [List.append_assoc, List.cons_append, List.nil_append]
        unfold parseChecksEntries
        rw [parseJString_pad, parseJString_rt]
        simp only [Option.bind_eq_bind, Option.some_bind, Option.pure_def]
        rw [skipWs_cons_nws _ (by decide), expectChar_cons]
        simp only [Option.bind_eq_bind, Option.some_bind]
        rw [parseCheckResult_ws _ (by decide), parseCheckResult_rt]
        simp only [Option.bind_eq_bind, Option.some_bind]
        rw [skipWs_cons_nws _ (by decide), expectChar_cons]
        simp only [Option.bind_eq_bind, Option.some_bind]
        rw [parseChecksEntries_ws f _ (by decide)]
        have htlne : e2 :: tail2 ≠ [] := by simp
        have hflen : (e2 :: tail2).length ≤ f := by
          rw [htail] at hfuel
          simp only [List.length_cons] at hfuel ⊢
          omega
        rw [htail] at ih
        rw [ih htlne f hflen dd dc rest]
        simp

lemma parseChecks_ws (fuel : Nat) (c : Char) (h : isWsChar c = true)
    (l : List Char) : parseChecks fuel (c :: l) = parseChecks fuel l := by
  unfold parseChecks
  rw [skipWs_cons_ws c h]

lemma parseChecks_rt (d fuel : Nat) (entries : List (String × CheckResult))
    (hfuel : entries.length ≤ fuel) (rest : List Char) :
    parseChecks fuel (dumpChecks d entries ++ rest) = some (entries, rest) := by
  cases hent : entries with
  | nil =>
    unfold parseChecks
    have hd : dumpChecks d [] = ['{', '}'] := rfl
    rw [hd]
    simp only [List.cons_append, List.nil_append]
    rw [skipWs_cons_nws _ (by decide), expectChar_cons]
    simp only [Option.bind_eq_bind, Option.some_bind, Option.pure_def]
    rw [skipWs_cons_nws _ (by decide), expectChar_cons]
  | cons e tail =>
    obtain ⟨k, v⟩ := e
    unfold parseChecks
    rw [dumpChecks_cons]
    simp only [List.append_assoc, List.cons_append, List.nil_append]
    rw [skipWs_cons_nws _ (by decide), expectChar_cons]
    simp only [Option.bind_eq_bind, Option.some_bind, Option.pure_def]
    have hprobe : expectChar '}'
        (skipWs ('\n' :: (dumpChecksEntries (d + 1) ((k, v) :: tail) ++
          ('\n' :: (pad d ++ ('}' :: rest)))))) = none := by
      rw [skipWs_cons_ws _ (by decide)]
      cases tail with
      | nil =>
        rw [dumpChecksEntries_single]
        simp only [List.append_assoc, List.cons_append, List.nil_append]
        rw [skipWs_pad, dumpString, List.cons_append,
          skipWs_cons_nws _ (by decide)]
        simp [expectChar]
      | cons e2 tl2 =>
        rw [dumpChecksEntries_cons2]
        simp only [List.append_assoc, List.cons_append, List.nil_append]
        rw [skipWs_pad, dumpString, List.cons_append,
          skipWs_cons_nws _ (by decide)]
        simp [expectChar]
    rw [hprobe]
    rw [parseChecksEntries_ws fuel _ (by decide)]
    rw [hent] at hfuel
    exact parseChecksEntries_rt ((k, v) :: tail) (by simp) fuel hfuel (d + 1) d rest

lemma parseArtifact_ws (fuel : Nat) (c : Char) (h : isWsChar c = true)
    (l : List Char) : parseArtifact fuel (c :: l) = parseArtifact fuel l := by
  unfold parseArtifact
  rw [skipWs_cons_ws c h]

lemma parseArtifact_rt (d fuel : Nat) (a : Artifact)
    (hfuel : a.checks.length ≤ fuel) (rest : List Char) :
    parseArtifact fuel (dumpArtifact d a ++ rest) = some (a, rest) := by
  unfold parseArtifact dumpArtifact
  simp only [List.append_assoc, List.cons_append, List.nil_append]
  rw [skipWs_cons_nws _ (by decide), expectChar_cons]
  simp only [Option.bind_eq_bind, Option.some_bind, Option.pure_def]
  rw [parseKeyColon_ws _ _ (by decide), parseKeyColon_pad, parseKeyColon_rt]
  simp only [Option.bind_eq_bind, Option.some_bind]
  rw [parseJString_ws _ (by decide), parseJString_rt]
  simp only [Option.bind_eq_bind, Option.some_bind]
  rw [skipWs_cons_nws _ (by decide), expectChar_cons]
  simp only [Option.bind_eq_bind, Option.some_bind]
  rw [parseKeyColon_ws _ _ (by decide), parseKeyColon_pad, parseKeyColon_rt]
  simp only [Option.bind_eq_bind, Option.some_bind]
  rw [parseChecks_ws _ _ (by decide), parseChecks_rt (d + 1) fuel a.checks hfuel]
  simp only [Option.bind_eq_bind, Option.some_bind]
  rw [skipWs_cons_ws _ (by decide), skipWs_pad, skipWs_cons_nws _ (by decide),
    expectChar_cons]
  simp only [Option.bind_eq_bind, Option.some_bind]

lemma dumpArtifactsItems_single (d : Nat) (a : Artifact) :
    dumpArtifactsItems d [a] = pad d ++ dumpArtifact d a := by
  rw [dumpArtifactsItems]
  simp

lemma dumpArtifactsItems_cons2 (d : Nat) (a b : Artifact) (tl : List Artifact) :
    dumpArtifactsItems d (a :: b :: tl) =
      pad d ++ (dumpArtifact d a ++
        (',' :: ('\n' :: dumpArtifactsItems d (b :: tl)))) := by
  rw [dumpArtifactsItems]
  simp [List.append_assoc]

lemma dumpArtifacts_cons (d : Nat) (a : Artifact) (tl : List Artifact) :
    dumpArtifacts d (a :: tl) =
      '[' :: ('\n' :: (dumpArtifactsItems (d + 1) (a :: tl) ++
        ('\n' :: (pad d ++ [']'])))) := by
  rw [dumpArtifacts]
  simp [List.append_assoc]

lemma parseArtifact_pad (fuel d : Nat) (l : List Char) :
    parseArtifact fuel (pad d ++ l) = parseArtifact fuel l := by
  unfold parseArtifact
  rw [skipWs_pad]

lemma parseArtifactsItems_ws (fuel : Nat) (c : Char) (h : isWsChar c = true)
    (l : List Char) :
    parseArtifactsItems fuel (c :: l) = parseArtifactsItems fuel l := by
  cases fuel with
  | zero => rfl
  | succ f =>
    unfold parseArtifactsItems
    rw [parseArtifact_ws _ _ h]

lemma parseArtifactsItems_rt (items : List Artifact) (hne : items ≠ []) :
    ∀ fuel, (∀ a ∈ items, items.length + a.checks.length ≤ fuel) →
    ∀ dd dc (rest : List Char),
    parseArtifactsItems fuel
      (dumpArtifactsItems dd items ++ ('\n' :: (pad dc ++ (']' :: rest)))) =
      some (items, rest) := by
  induction items with
  | nil => exact absurd rfl hne
  | cons a tail ih =>
    intro fuel hfuel dd dc rest
    have hha := hfuel a (List.mem_cons_self a tail)
    cases fuel with
    | zero => simp at hha
    | succ f =>
      have hcheck : a.checks.length ≤ Nat.succ f := by
        simp only [List.length_cons] at hha
        omega
      cases htail : tail with
      | nil =>
        rw [dumpArtifactsItems_single]
        simp only [List.append_assoc, List.cons_append, List.nil_append]
        unfold parseArtifactsItems
        rw [parseArtifact_pad, parseArtifact_rt dd _ a hcheck]
        simp only [Option.bind_eq_bind, Option.some_bind, Option.pure_def]
        have hskip : skipWs ('\n' :: (pad dc ++ (']' :: rest))) = ']' :: rest := by
          rw [skipWs_cons_ws _ (by decide), skipWs_pad,
            skipWs_cons_nws _ (by decide)]
        rw [hskip]
        simp [expectChar]
      | cons b tl2 =>
        rw [dumpArtifactsItems_cons2]
        simp only [List.append_assoc, List.cons_append, List.nil_append]
        unfold parseArtifactsItems
        rw [parseArtifact_pad, parseArtifact_rt dd _ a hcheck]
        simp only [Option.bind_eq_bind, Option.some_bind, Option.pure_def]
        rw [skipWs_cons_nws _ (by decide), expectChar_cons]
        simp only [Option.bind_eq_bind, Option.some_bind]
        rw [parseArtifactsItems_ws f _ (by decide)]
        rw [htail] at ih hfuel
        have hfl : ∀ x ∈ b :: tl2, (b :: tl2).length + x.checks.length ≤ f := by
          intro x hx
          have := hfuel x (List.mem_cons_of_mem a hx)
          simp only [List.length_cons] at this ⊢
          omega
        rw [ih (by simp) f hfl dd dc rest]
        simp

lemma parseArtifacts_ws (fuel : Nat) (c : Char) (h : isWsChar c = true)
    (l : List Char) : parseArtifacts fuel (c :: l) = parseArtifacts fuel l := by
  unfold parseArtifacts
  rw [skipWs_cons_ws c h]

lemma parseArtifacts_rt (d fuel : Nat) (items : List Artifact)
    (hfuel : ∀ a ∈ items, items.length + a.checks.length ≤ fuel)
    (rest : List Char) :
    parseArtifacts fuel (dumpArtifacts d items ++ rest) = some (items, rest) := by
  cases hit : items with
  | nil =>
    unfold parseArtifacts
    have hd : dumpArtifacts d [] = ['[', ']'] := rfl
    rw [hd]
    simp only [List.cons_append, List.nil_append]
    rw [skipWs_cons_nws _ (by decide), expectChar_cons]
    simp only [Option.bind_eq_bind, Option.some_bind, Option.pure_def]
    rw [skipWs_cons_nws _ (by decide), expectChar_cons]
  | cons a tl =>
    unfold parseArtifacts
    rw [dumpArtifacts_cons]
    simp only [List.append_assoc, List.cons_append, List.nil_append]
    rw [skipWs_cons_nws _ (by decide), expectChar_cons]
    simp only [Option.bind_eq_bind, Option.some_bind, Option.pure_def]
    have hprobe : expectChar ']'
        (skipWs ('\n' :: (dumpArtifactsItems (d + 1) (a :: tl) ++
          ('\n' :: (pad d ++ (']' :: rest)))))) = none := by
      rw [skipWs_cons_ws _ (by decide)]
      cases tl with
      | nil =>
        rw [dumpArtifactsItems_single]
        simp only [List.append_assoc, List.cons_append, List.nil_append]
        rw [skipWs_pad, dumpArtifact]
        simp only [List.append_assoc, List.cons_append, List.nil_append]
        rw [skipWs_cons_nws _ (by decide)]
        simp [expectChar]
      | cons b tl2 =>
        rw [dumpArtifactsItems_cons2]
        simp only [List.append_assoc, List.cons_append, List.nil_append]
        rw [skipWs_pad, dumpArtifact]
        simp only [List.append_assoc, List.cons_append, List.nil_append]
        rw [skipWs_cons_nws _ (by decide)]
        simp [expectChar]
    rw [hprobe]
    rw [parseArtifactsItems_ws fuel _ (by decide)]
    rw [hit] at hfuel
    exact parseArtifactsItems_rt (a :: tl) (by simp) fuel hfuel (d + 1) d rest

lemma parseStrFieldComma_rt (key value : String) (l : List Char) :
    parseStrFieldComma key (dumpStrField key value ++ l) =
      some (value, '\n' :: l) := by
  unfold parseStrFieldComma parseStrField dumpStrField
  simp only [List.append_assoc, List.cons_append, List.nil_append]
  rw [parseKeyColon_pad, parseKeyColon_rt]
  simp only [Option.bind_eq_bind, Option.some_bind, Option.pure_def]
  rw [parseJString_ws _ (by decide), parseJString_rt]
  simp only [Option.bind_eq_bind, Option.some_bind]
  unfold parseComma
  rw [skipWs_cons_nws _ (by decide), expectChar_cons]
  simp only [Option.bind_eq_bind, Option.some_bind]

lemma parseStrFieldComma_ws (key : String) (c : Char) (h : isWsChar c = true)
    (l : List Char) :
    parseStrFieldComma key (c :: l) = parseStrFieldComma key l := by
  unfold parseStrFieldComma parseStrField
  rw [parseKeyColon_ws _ _ h]

lemma parseListField_rt (fuel : Nat) (key : String) (items : List Artifact)
    (hfuel : ∀ a ∈ items, items.length + a.checks.length ≤ fuel)
    (l : List Char) :
    parseListField fuel key (dumpListField key items ++ l) = some (items, l) := by
  unfold parseListField dumpListField
  simp only [List.append_assoc, List.cons_append, List.nil_append]
  rw [parseKeyColon_pad, parseKeyColon_rt]
  simp only [Option.bind_eq_bind, Option.some_bind, Option.pure_def]
  rw [parseArtifacts_ws _ _ (by decide), parseArtifacts_rt 1 fuel items hfuel]

lemma parseListField_ws (fuel : Nat) (key : String) (c : Char)
    (h : isWsChar c = true) (l : List Char) :
    parseListField fuel key (c :: l) = parseListField fuel key l := by
  unfold parseListField
  rw [parseKeyColon_ws _ _ h]

lemma parseListFieldComma_rt (fuel : Nat) (key : String) (items : List Artifact)
    (hfuel : ∀ a ∈ items, items.length + a.checks.length ≤ fuel)
    (l : List Char) :
    parseListFieldComma fuel key
      (dumpListField key items ++ (',' :: ('\n' :: l))) =
      some (items, '\n' :: l) := by
  unfold parseListFieldComma
  rw [parseListField_rt fuel key items hfuel]
  simp only [Option.bind_eq_bind, Option.some_bind, Option.pure_def]
  unfold parseComma
  rw [skipWs_cons_nws _ (by decide), expectChar_cons]
  simp only [Option.bind_eq_bind, Option.some_bind]

lemma parseListFieldComma_ws (fuel : Nat) (key : String) (c : Char)
    (h : isWsChar c = true) (l : List Char) :
    parseListFieldComma fuel key (c :: l) = parseListFieldComma fuel key l := by
  unfold parseListFieldComma
  rw [parseListField_ws fuel key c h]

lemma parseMetaA_rt (v1 v2 v3 v4 : String) (l : List Char) :
    parseMetaA (dumpStrField "project_id" v1 ++
      (dumpStrField "proposal_title" v2 ++
        (dumpStrField "principal_investigator" v3 ++
          (dumpStrField "proposal_date" v4 ++ l)))) =
      some ((v1, v2, v3, v4), '\n' :: l) := by
  unfold parseMetaA
  rw [parseStrFieldComma_rt]
  simp only [Option.bind_eq_bind, Option.some_bind, Option.pure_def]
  rw [parseStrFieldComma_ws _ _ (by decide), parseStrFieldComma_rt]
  simp only [Option.bind_eq_bind, Option.some_bind]
  rw [parseStrFieldComma_ws _ _ (by decide), parseStrFieldComma_rt]
  simp only [Option.bind_eq_bind, Option.some_bind]
  rw [parseStrFieldComma_ws _ _ (by decide), parseStrFieldComma_rt]
  simp only [Option.bind_eq_bind, Option.some_bind]

lemma parseMetaA_ws (c : Char) (h : isWsChar c = true) (l : List Char) :
    parseMetaA (c :: l) = parseMetaA l := by
  unfold parseMetaA
  rw [parseStrFieldComma_ws _ _ h]

lemma parseMetaB_rt (v5 v6 v7 : String) (l : List Char) :
    parseMetaB (dumpStrField "reviewer_name" v5 ++
      (dumpStrField "reviewer_id" v6 ++
        (dumpStrField "crr_date" v7 ++ l))) =
      some ((v5, v6, v7), '\n' :: l) := by
  unfold parseMetaB
  rw [parseStrFieldComma_rt]
  simp only [Option.bind_eq_bind, Option.some_bind, Option.pure_def]
  rw [parseStrFieldComma_ws _ _ (by decide), parseStrFieldComma_rt]
  simp only [Option.bind_eq_bind, Option.some_bind]
  rw [parseStrFieldComma_ws _ _ (by decide), parseStrFieldComma_rt]
  simp only [Option.bind_eq_bind, Option.some_bind]

lemma parseMetaB_ws (c : Char) (h : isWsChar c = true) (l : List Char) :
    parseMetaB (c :: l) = parseMetaB l := by
  unfold parseMetaB
  rw [parseStrFieldComma_ws _ _ h]

lemma parseCats_rt (fuel : Nat) (l1 l2 l3 l4 : List Artifact)
    (h1 : ∀ a ∈ l1, l1.length + a.checks.length ≤ fuel)
    (h2 : ∀ a ∈ l2, l2.length + a.checks.length ≤ fuel)
    (h3 : ∀ a ∈ l3, l3.length + a.checks.length ≤ fuel)
    (h4 : ∀ a ∈ l4, l4.length + a.checks.length ≤ fuel)
    (l : List Char) :
    parseCats fuel (dumpListField "third_party_software" l1 ++
      (',' :: ('\n' :: (dumpListField "source_code" l2 ++
        (',' :: ('\n' :: (dumpListField "datasets_user_files" l3 ++
          (',' :: ('\n' :: (dumpListField "models" l4 ++ l)))))))))) =
      some ((l1, l2, l3, l4), l) := by
  unfold parseCats
  rw [parseListFieldComma_rt fuel _ _ h1]
  simp only [Option.bind_eq_bind, Option.some_bind, Option.pure_def]
  rw [parseListFieldComma_ws _ _ _ (by decide), parseListFieldComma_rt fuel _ _ h2]
  simp only [Option.bind_eq_bind, Option.some_bind]
  rw [parseListFieldComma_ws _ _ _ (by decide), parseListFieldComma_rt fuel _ _ h3]
  simp only [Option.bind_eq_bind, Option.some_bind]
  rw [parseListField_ws _ _ _ (by decide), parseListField_rt fuel _ _ h4]
  simp only [Option.bind_eq_bind, Option.some_bind]

lemma parseCats_ws (fuel : Nat) (c : Char) (h : isWsChar c = true)
    (l : List Char) : parseCats fuel (c :: l) = parseCats fuel l := by
  unfold parseCats
  rw [parseListFieldComma_ws _ _ _ h]

lemma parseRecord_rt (fuel : Nat) (r : ReviewRecord)
    (h1 : ∀ a ∈ r.third_party_software,
      r.third_party_software.length + a.checks.length ≤ fuel)
    (h2 : ∀ a ∈ r.source_code, r.source_code.length + a.checks.length ≤ fuel)
    (h3 : ∀ a ∈ r.datasets_user_files,
      r.datasets_user_files.length + a.checks.length ≤ fuel)
    (h4 : ∀ a ∈ r.models, r.models.length + a.checks.length ≤ fuel)
    (rest : List Char) :
    parseRecord fuel (dumpRecord r ++ rest) = some (r, rest) := by
  unfold parseRecord dumpRecord
  simp only [List.append_assoc, List.cons_append, List.nil_append]
  rw [skipWs_cons_nws _ (by decide), expectChar_cons]
  simp only [Option.bind_eq_bind, Option.some_bind, Option.pure_def]
  rw [parseMetaA_ws _ (by decide), parseMetaA_rt]
  simp only [Option.bind_eq_bind, Option.some_bind]
  rw [parseMetaB_ws _ (by decide), parseMetaB_rt]
  simp only [Option.bind_eq_bind, Option.some_bind]
  rw [parseCats_ws _ _ (by decide), parseCats_rt fuel _ _ _ _ h1 h2 h3 h4]
  simp only [Option.bind_eq_bind, Option.some_bind]
  rw [skipWs_cons_ws _ (by decide), skipWs_cons_nws _ (by decide),
    expectChar_cons]
  simp only [Option.bind_eq_bind, Option.some_bind]

lemma dumpString_len (s : String) : 2 ≤ (dumpString s).length := by
  rw [dumpString]
  simp only [List.length_cons, List.length_append, List.length_singleton]
  omega

lemma dumpChecksEntries_len (d : Nat) (entries : List (String × CheckResult)) :
    entries.length ≤ (dumpChecksEntries d entries).length := by
  induction entries with
  | nil => simp [dumpChecksEntries]
  | cons e tl ih =>
    obtain ⟨k, v⟩ := e
    have hs := dumpString_len k
    cases tl with
    | nil =>
      rw [dumpChecksEntries_single]
      simp only [List.length_append, List.length_cons, List.length_singleton,
        List.length_nil]
      omega
    | cons e2 tl2 =>
      rw [dumpChecksEntries_cons2]
      simp only [List.length_append, List.length_cons,
        List.length_singleton] at ih ⊢
      omega

lemma dumpChecks_len (d : Nat) (entries : List (String × CheckResult)) :
    entries.length ≤ (dumpChecks d entries).length := by
  cases entries with
  | nil => simp
  | cons e tl =>
    have h := dumpChecksEntries_len (d + 1) (e :: tl)
    rw [dumpChecks_cons]
    simp only [List.length_append, List.length_cons,
      List.length_singleton] at h ⊢
    omega

lemma dumpArtifact_len (d : Nat) (a : Artifact) :
    a.checks.length + 1 ≤ (dumpArtifact d a).length := by
  have h := dumpChecks_len (d + 1) a.checks
  rw [dumpArtifact]
  simp only [List.length_append, List.length_cons, List.length_singleton]
  omega

lemma dumpArtifactsItems_len1 (d : Nat) (items : List Artifact) :
    items.length ≤ (dumpArtifactsItems d items).length := by
  induction items with
  | nil => simp [dumpArtifactsItems]
  | cons a tl ih =>
    have ha := dumpArtifact_len d a
    cases tl with
    | nil =>
      rw [dumpArtifactsItems_single]
      simp only [List.length_append, List.length_cons, List.length_nil]
      omega
    | cons b tl2 =>
      rw [dumpArtifactsItems_cons2]
      simp only [List.length_append, List.length_cons] at ih ⊢
      omega

lemma dumpArtifactsItems_len2 (d : Nat) (items : List Artifact) :
    ∀ a ∈ items, items.length + a.checks.length ≤
      (dumpArtifactsItems d items).length := by
  induction items with
  | nil => intro a ha; cases ha
  | cons x tl ih =>
    intro a ha
    rcases List.mem_cons.mp ha with hax | hat
    · subst hax
      have hx := dumpArtifact_len d a
      cases tl with
      | nil =>
        rw [dumpArtifactsItems_single]
        simp only [List.length_append, List.length_cons, List.length_nil]
        omega
      | cons b tl2 =>
        rw [dumpArtifactsItems_cons2]
        have ht := dumpArtifactsItems_len1 d (b :: tl2)
        simp only [List.length_append, List.length_cons] at ht ⊢
        omega
    · have hx := dumpArtifact_len d x
      cases tl with
      | nil => cases hat
      | cons b tl2 =>
        rw [dumpArtifactsItems_cons2]
        have ht := ih a hat
        simp only [List.length_append, List.length_cons] at ht ⊢
        omega

lemma dumpListField_len (key : String) (items : List Artifact) :
    ∀ a ∈ items, items.length + a.checks.length ≤
      (dumpListField key items).length := by
  intro a ha
  cases items with
  | nil => cases ha
  | cons x tl =>
    have h := dumpArtifactsItems_len2 (1 + 1) (x :: tl) a ha
    rw [dumpListField, dumpArtifacts_cons]
    simp only [List.length_append, List.length_cons,
      List.length_singleton] at h ⊢
    omega

lemma dumpRecord_len_cat (r : ReviewRecord) :
    (∀ a ∈ r.third_party_software,
      r.third_party_software.length + a.checks.length ≤ (dumpRecord r).length) ∧
    (∀ a ∈ r.source_code,
      r.source_code.length + a.checks.length ≤ (dumpRecord r).length) ∧
    (∀ a ∈ r.datasets_user_files,
      r.datasets_user_files.length + a.checks.length ≤ (dumpRecord r).length) ∧
    (∀ a ∈ r.models,
      r.models.length + a.checks.length ≤ (dumpRecord r).length) := by
  refine ⟨?_, ?_, ?_, ?_⟩ <;> intro a ha
  · have h := dumpListField_len "third_party_software" r.third_party_software a ha
    rw [dumpRecord]
    simp only [List.length_append, List.length_cons, List.length_singleton] at h ⊢
    omega
  · have h := dumpListField_len "source_code" r.source_code a ha
    rw [dumpRecord]
    simp only [List.length_append, List.length_cons, List.length_singleton] at h ⊢
    omega
  · have h := dumpListField_len "datasets_user_files" r.datasets_user_files a ha
    rw [dumpRecord]
    simp only [List.length_append, List.length_cons, List.length_singleton] at h ⊢
    omega
  · have h := dumpListField_len "models" r.models a ha
    rw [dumpRecord]
    simp only [List.length_append, List.length_cons, List.length_singleton] at h ⊢
    omega

end AIMCR

open AIMCR

/-- C1: for every non-empty category whose artifacts all carry that category's
check names, the section risk display of `render_section` is defined and shows
`(total, level)` where the per-check maxima are the true maxima of the scores
present for each check name, `total` is their sum, and `level` is: CRITICAL if
some per-check maximum equals 5 or the total is at least 21; else HIGH if the
total is at least 15; else MEDIUM if the total is at least 10; else LOW
(CRITICAL before HIGH before MEDIUM, the score-5 override independent of the
total). -/
theorem C1_category_severity (arts : List Artifact) (names : List String)
    (hne : arts ≠ []) (h : allChecksPresent arts names) :
    max_scores arts names = some (names.map (specCheckMax arts)) ∧
    (∀ c ∈ names, specCheckMax arts c ∈ presentScores arts c ∧
      ∀ s ∈ presentScores arts c, s ≤ specCheckMax arts c) ∧
    render_section_display arts names =
      some ((names.map (specCheckMax arts)).sum,
            severity_spec (names.map (specCheckMax arts))) := by
  have hms := max_scores_eq_spec arts names hne h
  refine ⟨hms, ?_, ?_⟩
  · intro c hc
    exact specCheckMax_mem_and_bound arts c hne (fun a ha => h a ha c hc)
  · have hnil : ¬ arts.isEmpty := by
      cases arts with
      | nil => exact absurd rfl hne
      | cons a rest => simp
    simp [render_section_display, hnil, hms, levelOf_eq_severity_spec]

/-- Witness for C1 at a concrete one-artifact category with a score of 5. -/
theorem C1_category_severity_witness :
    let a : Artifact := ⟨"m1", [("w", ⟨5, ""⟩), ("x", ⟨1, ""⟩)]⟩
    max_scores [a] ["w", "x"] = some (["w", "x"].map (specCheckMax [a])) ∧
    (∀ c ∈ ["w", "x"], specCheckMax [a] c ∈ presentScores [a] c ∧
      ∀ s ∈ presentScores [a] c, s ≤ specCheckMax [a] c) ∧
    render_section_display [a] ["w", "x"] =
      some ((["w", "x"].map (specCheckMax [a])).sum,
            severity_spec (["w", "x"].map (specCheckMax [a]))) :=
  C1_category_severity _ _ (by decide) (by decide)

/-- C3: for every well-formed review record, `final_risk` is the sum of
category totals over only the categories containing at least one artifact
(empty categories are skipped), and the critical flag is true exactly when
some contributing category has a per-check maximum of 5 or the summed total
is at least 21; a record with artifacts only in `models` has review total
equal to that single category's total. -/
theorem C3_review_risk (d : SessionData) (h : session_wf d) :
    ∃ T C, final_risk d = some (T, C) ∧
      T = review_total_spec d ∧
      ((C = true) ↔
        ((∃ p ∈ category_list d, p.1 ≠ [] ∧ ∃ c ∈ p.2, specCheckMax p.1 c = 5) ∨
          21 ≤ T)) ∧
      (d.third_party_software = [] → d.source_code = [] →
        d.datasets_user_files = [] → d.models ≠ [] →
        T = cat_total d.models checks_models) := by
  have hs := summarize_eq_spec (category_list d) h
  refine ⟨review_total_spec d,
    decide (21 ≤ review_total_spec d) || has_crit_spec d, ?_, rfl, ?_, ?_⟩
  · simp [final_risk, hs, review_total_spec, has_crit_spec]
  · have hcrit : has_crit_spec d = true ↔
        ∃ p ∈ category_list d, p.1 ≠ [] ∧ ∃ c ∈ p.2, specCheckMax p.1 c = 5 := by
      unfold has_crit_spec
      rw [List.any_eq_true]
      constructor
      · rintro ⟨p, hpmem, hpf⟩
        rw [Bool.and_eq_true] at hpf
        obtain ⟨hpe, hpc⟩ := hpf
        refine ⟨p, hpmem, ?_, ?_⟩
        · intro habs
          rw [habs] at hpe; simp at hpe
        · have h5 : (5 : Int) ∈ p.2.map (specCheckMax p.1) := by
            simpa [List.contains, List.elem_eq_mem] using hpc
          rcases List.mem_map.mp h5 with ⟨c, hc, hcm⟩
          exact ⟨c, hc, hcm⟩
      · rintro ⟨p, hpmem, hpe, c, hc, hcm⟩
        refine ⟨p, hpmem, ?_⟩
        rw [Bool.and_eq_true]
        refine ⟨?_, ?_⟩
        · cases hl : p.1 with
          | nil => exact absurd hl hpe
          | cons x xs => simp [hl]
        · have h5 : (5 : Int) ∈ p.2.map (specCheckMax p.1) :=
            List.mem_map.mpr ⟨c, hc, hcm⟩
          simpa [List.contains, List.elem_eq_mem] using h5
    rw [Bool.or_eq_true, decide_eq_true_eq, hcrit]
    exact or_comm
  · intro h1 h2 h3 h4
    have hmne : d.models.isEmpty = false := by
      cases hl : d.models with
      | nil => exact absurd hl h4
      | cons x xs => simp
    simp [review_total_spec, category_list, h1, h2, h3, hmne]

/-- Witness for C3 at a concrete record populated only in `models`. -/
theorem C3_review_risk_witness :
    let a : Artifact := ⟨"m1", checks_models.map (fun c => (c, ⟨1, ""⟩))⟩
    let d : SessionData := ⟨[], [], [], [a]⟩
    ∃ T C, final_risk d = some (T, C) ∧
      T = review_total_spec d ∧
      ((C = true) ↔
        ((∃ p ∈ category_list d, p.1 ≠ [] ∧ ∃ c ∈ p.2, specCheckMax p.1 c = 5) ∨
          21 ≤ T)) ∧
      (d.third_party_software = [] → d.source_code = [] →
        d.datasets_user_files = [] → d.models ≠ [] →
        T = cat_total d.models checks_models) :=
  C3_review_risk _ (by decide)

/-- C5 counterexample: for an artifact lacking one of its category's check
names, the aggregation of `render_section` does not skip the missing check:
the per-check maxima computation raises a `KeyError` (modelled as `none`),
contradicting the claim that the aggregation does not raise. -/
theorem C5_counterexample :
    max_scores [c5_artifact] checks_third_party_software = none ∧
    render_section_display [c5_artifact] checks_third_party_software = none := by
  constructor <;> rfl

/-- C5 amended: when an artifact of a category lacks one of that category's
check names, the per-check maxima computation at category level and the
review-level summary both raise a `KeyError` (modelled as `none`) rather
than skipping the missing check. -/
theorem C5_missing_check_raises (d : SessionData) (arts : List Artifact)
    (names : List String) (a : Artifact) (c : String)
    (hp : (arts, names) ∈ category_list d)
    (ha : a ∈ arts) (hc : c ∈ names)
    (hmiss : dict_lookup a.checks c = none) :
    max_scores arts names = none ∧
    render_section_display arts names = none ∧
    final_risk d = none := by
  have hms := max_scores_none_of_missing arts names a c ha hc hmiss
  have hne : arts.isEmpty = false := by
    cases hl : arts with
    | nil => rw [hl] at ha; cases ha
    | cons x xs => simp
  refine ⟨hms, ?_, ?_⟩
  · simp [render_section_display, hne, hms]
  · have hsn := summarize_none_of_failure (category_list d) arts names hp hne hms
    simp [final_risk, hsn]

/-- Witness for the amended C5 at a concrete session. -/
theorem C5_missing_check_raises_witness :
    max_scores [c5_artifact] checks_third_party_software = none ∧
    render_section_display [c5_artifact] checks_third_party_software = none ∧
    final_risk ⟨[c5_artifact], [], [], []⟩ = none :=
  C5_missing_check_raises ⟨[c5_artifact], [], [], []⟩ [c5_artifact]
    checks_third_party_software c5_artifact "Known vulnerabilities (CVE)"
    (by decide) (by decide) (by decide) (by decide)

/-- C2: for every sequence of check entries, `calculate_total_risk` equals
the sum of the numeric score values only — non-numeric or missing scores
contribute zero instead of failing — and the total of the empty sequence
is 0. -/
theorem C2_total_risk (checks : List CheckObj) :
    calculate_total_risk checks = numericSum checks ∧
    calculate_total_risk [] = 0 := by
  refine ⟨?_, rfl⟩
  have h := calculate_total_risk_go checks 0
  simpa [calculate_total_risk] using h

/-- C4: `create_check_elements` produces exactly the header row followed by
one row per check and the queued expanded blocks in order; a check whose
stripped notes text exceeds 800 characters gets the literal placeholder
cell "See details below ↓" and an expanded block labelled with the check's
name carrying the full notes with line breaks turned into `<br/>`; notes of
at most 800 characters render inline (line breaks preserved) and produce no
expanded block; empty notes render as the dash placeholder. -/
theorem C4_notes_overflow (checks : List CheckObj) :
    create_check_elements checks =
      (header_row :: checks.map rowOf, checks.filterMap expandedOf) ∧
    (∀ c : CheckObj, MAX_NOTES_IN_TABLE < (notesRaw c).length →
      rowOf c = (c.name.getD "—", score_display c, "<i>See details below ↓</i>") ∧
      expandedOf c = some (c.name.getD "—", notesHtml c)) ∧
    (∀ c : CheckObj, (notesRaw c).length ≤ MAX_NOTES_IN_TABLE →
      notesHtml c ≠ "" →
      rowOf c = (c.name.getD "—", score_display c, notesHtml c) ∧
      expandedOf c = none) ∧
    (∀ c : CheckObj, notesRaw c = "" →
      rowOf c = (c.name.getD "—", score_display c, "—") ∧
      expandedOf c = none) := by
  refine ⟨create_check_elements_eq checks, ?_, ?_, ?_⟩
  · intro c hl
    simp [rowOf, expandedOf, hl]
  · intro c hle hne
    have hl : ¬ MAX_NOTES_IN_TABLE < (notesRaw c).length := by omega
    simp [rowOf, expandedOf, hl, hne]
  · intro c hraw
    have h0 : (notesRaw c).length = 0 := by rw [hraw]; rfl
    have hl : ¬ MAX_NOTES_IN_TABLE < (notesRaw c).length := by omega
    have hh : notesHtml c = "" := by rw [notesHtml, hraw]; rfl
    simp [rowOf, expandedOf, hl, hh]

set_option maxRecDepth 40000 in
/-- Witness for C4 at a one-check list whose notes are 801 characters. -/
theorem C4_notes_overflow_witness :
    let long : CheckObj :=
      ⟨some "Secrets scanning", some (.int 3),
       some (String.mk (List.replicate 801 'a'))⟩
    create_check_elements [long] =
      (header_row :: [long].map rowOf, [long].filterMap expandedOf) ∧
    MAX_NOTES_IN_TABLE < (notesRaw long).length ∧
    rowOf long =
      (long.name.getD "—", score_display long, "<i>See details below ↓</i>") ∧
    expandedOf long = some (long.name.getD "—", notesHtml long) := by
  intro long
  have h := C4_notes_overflow [long]
  have hlen : MAX_NOTES_IN_TABLE < (notesRaw long).length := by decide
  exact ⟨h.1, hlen, (h.2.1 long hlen).1, (h.2.1 long hlen).2⟩

/-- C6 counterexample: a numeric score of 7 lies outside {1,2,3,4,5} yet is
counted by `calculate_total_risk`, so it is not excluded from the sum-based
artifact total as the claim states. -/
theorem C6_counterexample :
    calculate_total_risk [⟨some "X", some (.int 7), none⟩] = 7 ∧
    calculate_total_risk [⟨some "X", some (.int 7), none⟩] ≠ 0 := by
  constructor <;> decide

/-- C6 amended: non-numeric or missing scores contribute zero to the
sum-based artifact total, but numeric scores are counted regardless of
range; the max-based category aggregation likewise uses the stored scores
as they are — a singleton category's per-check maxima are exactly its
stored scores, whatever their values — rather than excluding out-of-range
values. -/
theorem C6_score_filtering (cs : List CheckObj) (nm nt : Option String) :
    (∀ n : Int,
      calculate_total_risk (cs ++ [⟨nm, some (.int n), nt⟩]) =
        calculate_total_risk cs + n) ∧
    (calculate_total_risk (cs ++ [⟨nm, none, nt⟩]) = calculate_total_risk cs) ∧
    (∀ s : String,
      calculate_total_risk (cs ++ [⟨nm, some (.str s), nt⟩]) =
        calculate_total_risk cs) ∧
    (∀ (a : Artifact) (names : List String),
      (∀ c ∈ names, (dict_lookup a.checks c).isSome) →
      max_scores [a] names = some (names.map (scoreOf a))) := by
  have base : ∀ x : CheckObj,
      calculate_total_risk (cs ++ [x]) =
        calculate_total_risk cs + numericSum [x] := by
    intro x
    have h1 := calculate_total_risk_go (cs ++ [x]) 0
    have h2 := calculate_total_risk_go cs 0
    have hsplit : numericSum (cs ++ [x]) = numericSum cs + numericSum [x] := by
      simp [numericSum, List.filterMap_append]
    simp only [calculate_total_risk] at h1 h2 ⊢
    rw [h1, h2, hsplit]
    ring
  refine ⟨?_, ?_, ?_, ?_⟩
  · intro n
    have := base ⟨nm, some (.int n), nt⟩
    simpa [numericSum] using this
  · have := base ⟨nm, none, nt⟩
    simpa [numericSum] using this
  · intro s
    have := base ⟨nm, some (.str s), nt⟩
    simpa [numericSum] using this
  · intro a names h
    exact max_scores_singleton a names h

/-- Witness for the amended C6: an out-of-range score 7 is counted in the
total and becomes a per-check maximum. -/
theorem C6_score_filtering_witness :
    (calculate_total_risk ([] ++ [(⟨some "X", some (.int 7), none⟩ : CheckObj)]) =
      calculate_total_risk [] + 7) ∧
    max_scores [(⟨"A", [("k", ⟨7, ""⟩)]⟩ : Artifact)] ["k"] = some [7] := by
  constructor
  · exact (C6_score_filtering [] (some "X") none).1 7
  · have h := (C6_score_filtering [] none none).2.2.2
      ⟨"A", [("k", ⟨7, ""⟩)]⟩ ["k"] (by decide)
    simpa [scoreOf, dict_lookup] using h

/-- C8: missing optional fields render as their defined placeholders rather
than failing: an absent metadata key shows N/A in its row of the metadata
table, an absent or blank-after-trimming artifact name displays
"(Unnamed component)", and absent notes render as the dash placeholder in
the check table. -/
theorem C8_missing_fields (metadata : List (String × String)) :
    (∀ k lbl, (k, lbl) ∈ metadata_fields → dict_lookup metadata k = none →
      ("<b>" ++ lbl ++ ":</b>", "N/A") ∈ create_metadata_table metadata) ∧
    (display_name none = "(Unnamed component)" ∧
      ∀ s : String, pyStrip s = "" →
        display_name (some s) = "(Unnamed component)") ∧
    (∀ (cs : List CheckObj) (c : CheckObj), c ∈ cs → c.notes = none →
      (c.name.getD "—", score_display c, "—") ∈ (create_check_elements cs).1) := by
  refine ⟨?_, ⟨rfl, ?_⟩, ?_⟩
  · intro k lbl hmem hnone
    have : ("<b>" ++ lbl ++ ":</b>", "N/A") =
        (fun kv : String × String =>
          ("<b>" ++ kv.2 ++ ":</b>", (dict_lookup metadata kv.1).getD "N/A"))
          (k, lbl) := by
      simp [hnone]
    rw [create_metadata_table, this]
    exact List.mem_map_of_mem _ hmem
  · intro s hs
    simp [display_name, hs]
  · intro cs c hc hnone
    have hraw : notesRaw c = "" := by rw [notesRaw, hnone]; rfl
    have hlen : ¬ MAX_NOTES_IN_TABLE < (notesRaw c).length := by
      rw [hraw]; decide
    have hh : notesHtml c = "" := by rw [notesHtml, hraw]; rfl
    have hrow : rowOf c = (c.name.getD "—", score_display c, "—") := by
      simp [rowOf, hlen, hh]
    rw [create_check_elements_eq cs]
    exact List.mem_cons_of_mem _ (hrow ▸ List.mem_map_of_mem rowOf hc)

/-- Witness for C8 at an empty metadata mapping and a one-check list with
absent notes. -/
theorem C8_missing_fields_witness :
    ("<b>" ++ "Project ID" ++ ":</b>", "N/A") ∈ create_metadata_table [] ∧
    display_name (some "   ") = "(Unnamed component)" ∧
    ((⟨some "Secrets scanning", some (.int 2), none⟩ : CheckObj).name.getD "—",
      score_display ⟨some "Secrets scanning", some (.int 2), none⟩, "—") ∈
      (create_check_elements [⟨some "Secrets scanning", some (.int 2), none⟩]).1 := by
  refine ⟨?_, ?_, ?_⟩
  · exact (C8_missing_fields []).1 "project_id" "Project ID" (by decide) (by decide)
  · exact (C8_missing_fields []).2.1.2 "   " (by decide)
  · exact (C8_missing_fields []).2.2
      [⟨some "Secrets scanning", some (.int 2), none⟩]
      ⟨some "Secrets scanning", some (.int 2), none⟩
      (List.mem_singleton.mpr rfl) rfl

/-- C7: for every input record in which an item's `checks` field is the
non-empty name-keyed mapping shape produced by the interactive app, the PDF
path raises an exception while building the check table (iterating the
mapping yields string keys on which `.get` is called), so the section — and
with it the document — cannot be rendered. -/
theorem C7_dict_checks_raise (items : List ItemDyn) (it : ItemDyn)
    (entries : List (String × CheckResult)) (hmem : it ∈ items)
    (hck : it.checks = some (.dict entries)) (hne : entries ≠ []) :
    exceptFailed (render_item it) = true ∧
    exceptFailed (add_component_section items) = true := by
  have hitem : exceptFailed (render_item it) = true := by
    cases entries with
    | nil => exact absurd rfl hne
    | cons e es => simp [render_item, hck, checksTruthy, exceptFailed]
  exact ⟨hitem, add_component_section_error items it hmem hitem⟩

/-- Witness for C7 at an artifact exactly as the interactive app saves it
(all six model checks at score 1). -/
theorem C7_dict_checks_raise_witness :
    let appShaped : ItemDyn :=
      ⟨some "Artifact 1",
       some (.dict (checks_models.map (fun c => (c, ⟨1, ""⟩))))⟩
    exceptFailed (render_item appShaped) = true ∧
    exceptFailed (add_component_section [appShaped]) = true := by
  intro appShaped
  exact C7_dict_checks_raise [appShaped] appShaped
    (checks_models.map (fun c => (c, ⟨1, ""⟩)))
    (List.mem_singleton.mpr rfl) rfl (by decide)

/-- C10: the category check-name lists have six entries each, and every UI
operation preserves the invariant that each artifact holds a check result
for exactly its category's fixed check names with every score in 1..5:
adding an artifact yields a well-formed list whose new artifact carries
every check name at score 1 with empty notes; editing a check with a
selector score in 1..5 preserves the invariant; removing an artifact
preserves it. -/
theorem C10_ui_invariant (names : List String) (arts : List Artifact)
    (hwf : wf_section names arts) :
    (checks_third_party_software.length = 6 ∧ checks_source_code.length = 6 ∧
     checks_datasets_user_files.length = 6 ∧ checks_models.length = 6) ∧
    (wf_section names (add_artifact names arts) ∧
     ∀ c ∈ names,
       dict_lookup (names.map (fun c2 => (c2, (⟨1, ""⟩ : CheckResult)))) c =
         some ⟨1, ""⟩) ∧
    (∀ i c s nts, c ∈ names → 1 ≤ s → s ≤ 5 →
      wf_section names (edit_check arts i c s nts)) ∧
    (∀ i, wf_section names (remove_artifact arts i)) := by
  refine ⟨⟨rfl, rfl, rfl, rfl⟩, ⟨wf_section_add names arts hwf, ?_⟩, ?_, ?_⟩
  · intro c hc
    exact dict_lookup_map_const names c ⟨1, ""⟩ hc
  · intro i c s nts hc h1 h5
    exact wf_section_edit names arts hwf i c s nts hc h1 h5
  · intro i a ha
    exact hwf a (mem_of_mem_eraseIdx_aimcr arts i a ha)

/-- Witness for C10 at the models category with one well-formed artifact. -/
theorem C10_ui_invariant_witness :
    let a0 : Artifact := ⟨"m1", checks_models.map (fun c => (c, ⟨2, "ok"⟩))⟩
    (checks_third_party_software.length = 6 ∧ checks_source_code.length = 6 ∧
     checks_datasets_user_files.length = 6 ∧ checks_models.length = 6) ∧
    (wf_section checks_models (add_artifact checks_models [a0]) ∧
     ∀ c ∈ checks_models,
       dict_lookup (checks_models.map (fun c2 => (c2, (⟨1, ""⟩ : CheckResult)))) c =
         some ⟨1, ""⟩) ∧
    (∀ i c s nts, c ∈ checks_models → 1 ≤ s → s ≤ 5 →
      wf_section checks_models (edit_check [a0] i c s nts)) ∧
    (∀ i, wf_section checks_models (remove_artifact [a0] i)) :=
  C10_ui_invariant checks_models
    [⟨"m1", checks_models.map (fun c => (c, ⟨2, "ok"⟩))⟩] (by decide)

/-- C9: serializing a review record to the draft file text exactly as
`json.dump(..., indent=4, ensure_ascii=False)` lays it out and parsing that
text back yields the original record, equal in all fields, including every
check's score and notes. -/
theorem C9_draft_roundtrip (r : ReviewRecord) :
    load_draft (save_draft_text r) = some r := by
  unfold load_draft save_draft_text
  have hdata : (String.mk (dumpRecord r)).data = dumpRecord r := rfl
  have hlen : (String.mk (dumpRecord r)).length = (dumpRecord r).length := rfl
  obtain ⟨h1, h2, h3, h4⟩ := dumpRecord_len_cat r
  have hrec : parseRecord ((String.mk (dumpRecord r)).length + 1)
      (dumpRecord r) = some (r, []) := by
    have h := parseRecord_rt ((String.mk (dumpRecord r)).length + 1) r
      (fun a ha => le_trans (h1 a ha) (by rw [hlen]; omega))
      (fun a ha => le_trans (h2 a ha) (by rw [hlen]; omega))
      (fun a ha => le_trans (h3 a ha) (by rw [hlen]; omega))
      (fun a ha => le_trans (h4 a ha) (by rw [hlen]; omega))
      []
    rwa [List.append_nil] at h
  rw [hdata, hrec]
  simp [skipWs]
